import Mathlib

/-
Verification development for the heimdex ingest normalization core.

Shallow embedding conventions:
- Python JSON-decoded values are modelled by `JVal`; Python floats are modelled as exact
  rationals (ℚ).  Non-finite float literals ("inf"/"nan") and non-ASCII digits are outside
  the modelled grammar.
- Python exceptions are modelled by `Except PyErr`.
- Ambient effects (the wall clock, the system local timezone used by `astimezone` on naive
  datetimes, subprocess tool-version lookups, hashing libraries, the ffmpeg/cv2 thumbnail
  pipeline and the filesystem) are passed explicitly as parameters/oracles.
-/

-- ### Basic character/string helpers

def digitVal (c : Char) : ℕ := c.toNat - 48

/-- Python `str.strip()` whitespace set (ASCII subset). -/
def isPyWS (c : Char) : Bool :=
  c = ' ' ∨ c = '\t' ∨ c = '\n' ∨ c = '\r' ∨ c = '\x0b' ∨ c = '\x0c'

def stripChars (l : List Char) : List Char :=
  ((l.dropWhile isPyWS).reverse.dropWhile isPyWS).reverse

def pyStrip (s : String) : String := (stripChars s.toList).asString

/-- One step bound on remaining length; fuel is the input length, and every step consumes at
least one character, so the fuel never runs out on real input. -/
def pyReplaceFuel (pat rep : List Char) : ℕ → List Char → List Char
  | 0, _ => []
  | _ + 1, [] => []
  | n + 1, c :: rest =>
    if pat.isPrefixOf (c :: rest) then rep ++ pyReplaceFuel pat rep n ((c :: rest).drop pat.length)
    else c :: pyReplaceFuel pat rep n rest

/-- Python `s.replace(pat, rep)` for a nonempty pattern: every non-overlapping occurrence,
scanned left to right.  (The empty-pattern case never occurs in the embedded code.) -/
def pyReplace (s pat rep : String) : String :=
  if pat = "" then s
  else (pyReplaceFuel pat.toList rep.toList s.toList.length s.toList).asString

/-- Python `str.lower()` (ASCII subset). -/
def pyLower (s : String) : String := (s.toList.map Char.toLower).asString

/-- Parse a Python `digitpart`: `digit (["_"] digit)*`.  Returns the accumulated value, the
number of digits consumed, and the rest of the input.  An underscore is consumed only between
two digits, as in Python's numeric literal grammar. -/
def digitPartAux : List Char → ℕ → ℕ → ℕ × ℕ × List Char
  | [], acc, cnt => (acc, cnt, [])
  | c :: rest, acc, cnt =>
    if c.isDigit then digitPartAux rest (10 * acc + digitVal c) (cnt + 1)
    else if c = '_' ∧ cnt ≠ 0 then
      match rest with
      | c2 :: rest2 =>
        if c2.isDigit then digitPartAux rest2 (10 * acc + digitVal c2) (cnt + 1)
        else (acc, cnt, c :: rest)
      | [] => (acc, cnt, c :: rest)
    else (acc, cnt, c :: rest)

/-- Leading sign: returns (isNegative, rest). -/
def parseSign : List Char → Bool × List Char
  | '+' :: rest => (false, rest)
  | '-' :: rest => (true, rest)
  | l => (false, l)

/-- Python `int(string)` (base 10): surrounding whitespace stripped, optional sign, then a
nonempty digit part spanning the whole remainder. -/
def pyIntOfString (s : String) : Option ℤ :=
  let cs := stripChars s.toList
  let sgn := parseSign cs
  let p := digitPartAux sgn.2 0 0
  if p.2.1 = 0 ∨ ¬ p.2.2.isEmpty then none
  else some (if sgn.1 then -(p.1 : ℤ) else (p.1 : ℤ))

/-- Exponent-and-end step of Python `float(string)`. -/
def pyFloatFinish (neg : Bool) (mant : ℚ) (rest : List Char) : Option ℚ :=
  match rest with
  | [] => some (if neg then -mant else mant)
  | c :: r1 =>
    if c = 'e' ∨ c = 'E' then
      let sgn := parseSign r1
      let p := digitPartAux sgn.2 0 0
      if p.2.1 = 0 ∨ ¬ p.2.2.isEmpty then none
      else
        let scale : ℚ := if sgn.1 then 1 / (10 : ℚ) ^ p.1 else (10 : ℚ) ^ p.1
        some ((if neg then -mant else mant) * scale)
    else none

/-- Python `float(string)` over the finite-literal grammar: optional sign, integer part
and/or fraction, optional exponent.  `inf`/`nan` spellings are outside the model. -/
def pyFloatOfString (s : String) : Option ℚ :=
  let cs := stripChars s.toList
  let sgn := parseSign cs
  let ipP := digitPartAux sgn.2 0 0
  match ipP.2.2 with
  | '.' :: rest =>
    let fpP := digitPartAux rest 0 0
    if ipP.2.1 = 0 ∧ fpP.2.1 = 0 then none
    else
      let mant : ℚ := (ipP.1 : ℚ) + (fpP.1 : ℚ) / (10 : ℚ) ^ fpP.2.1
      pyFloatFinish sgn.1 mant fpP.2.2
  | _ =>
    if ipP.2.1 = 0 then none
    else pyFloatFinish sgn.1 (ipP.1 : ℚ) ipP.2.2

-- ### Rounding (Python `round`, banker's rounding; floats modelled as exact rationals)

def roundHalfEven (q : ℚ) : ℤ :=
  let f := ⌊q⌋
  let r := q - (f : ℚ)
  if r < 1 / 2 then f
  else if 1 / 2 < r then f + 1
  else if f % 2 = 0 then f else f + 1

/-- Python `round(x, n)` for `n` decimal places. -/
def pyRoundTo (n : ℕ) (q : ℚ) : ℚ :=
  (roundHalfEven (q * (10 : ℚ) ^ n) : ℚ) / (10 : ℚ) ^ n

/-- Python `int(float)`: truncation toward zero. -/
def ratTrunc (q : ℚ) : ℤ := if 0 ≤ q then ⌊q⌋ else ⌈q⌉

-- ### JSON-decoded Python values

inductive JVal where
  | null : JVal
  | bool : Bool → JVal
  | int : ℤ → JVal
  | float : ℚ → JVal
  | str : String → JVal
  | arr : List JVal → JVal
  | obj : List (String × JVal) → JVal

/-- Membership test `value in (None, "N/A", "")` as Python `==` decides it: only `None` and
the two string literals compare equal to an element of that tuple. -/
def isNullNAEmpty : JVal → Bool
  | .null => true
  | .str s => s = "N/A" ∨ s = ""
  | _ => false

/-- Python truthiness. -/
def JVal.truthy : JVal → Bool
  | .null => false
  | .bool b => b
  | .int n => n ≠ 0
  | .float q => q ≠ 0
  | .str s => s ≠ ""
  | .arr xs => ¬ xs.isEmpty
  | .obj fs => ¬ fs.isEmpty

/-- First-match lookup in a dict (Python dict keys are unique). -/
def dget (fs : List (String × JVal)) (k : String) : Option JVal :=
  (fs.find? (fun p => p.1 = k)).map (·.2)

/-- Python `d.get(k, default)`: the default applies only when the key is absent. -/
def dgetOr (fs : List (String × JVal)) (k : String) (d : JVal) : JVal :=
  (dget fs k).getD d

/-- Numeric view used by Python arithmetic/comparison: int, float and bool are numbers. -/
def numVal : JVal → Option ℚ
  | .int n => some (n : ℚ)
  | .float q => some q
  | .bool b => some (if b then 1 else 0)
  | _ => none

/-- Python `float(value)`. -/
def pyFloat : JVal → Option ℚ
  | .int n => some (n : ℚ)
  | .float q => some q
  | .bool b => some (if b then 1 else 0)
  | .str s => pyFloatOfString s
  | _ => none

/-- Python `int(value)`. -/
def pyIntConv : JVal → Option ℤ
  | .int n => some n
  | .float q => some (ratTrunc q)
  | .bool b => some (if b then 1 else 0)
  | .str s => pyIntOfString s
  | _ => none

-- ### Python datetime model
-- A `datetime.datetime`: calendar fields plus an optional fixed UTC offset in seconds
-- (`none` = naive).  `astimezone` on a naive value uses the system local timezone, which is
-- modelled as a fixed offset parameter.

structure PyDateTime where
  year : ℤ
  month : ℤ
  day : ℤ
  hour : ℤ
  minute : ℤ
  second : ℤ
  usec : ℤ
  tzOffSec : Option ℤ
deriving DecidableEq

/-- Days since 1970-01-01 of a civil date (Howard Hinnant's `days_from_civil`). -/
def daysFromCivil (y0 m d : ℤ) : ℤ :=
  let y := if m ≤ 2 then y0 - 1 else y0
  let era := Int.fdiv y 400
  let yoe := y - era * 400
  let mp := Int.emod (m + 9) 12
  let doy := Int.fdiv (153 * mp + 2) 5 + d - 1
  let doe := yoe * 365 + Int.fdiv yoe 4 - Int.fdiv yoe 100 + doy
  era * 146097 + doe - 719468

/-- Civil date from days since 1970-01-01 (Howard Hinnant's `civil_from_days`). -/
def civilFromDays (z0 : ℤ) : ℤ × ℤ × ℤ :=
  let z := z0 + 719468
  let era := Int.fdiv z 146097
  let doe := z - era * 146097
  let yoe := Int.fdiv (doe - Int.fdiv doe 1460 + Int.fdiv doe 36524 - Int.fdiv doe 146096) 365
  let y := yoe + era * 400
  let doy := doe - (365 * yoe + Int.fdiv yoe 4 - Int.fdiv yoe 100)
  let mp := Int.fdiv (5 * doy + 2) 153
  let d := doy - Int.fdiv (153 * mp + 2) 5 + 1
  let m := mp + (if mp < 10 then 3 else -9)
  (if m ≤ 2 then y + 1 else y, m, d)

/-- Seconds since the epoch of a datetime; a naive value is interpreted at `offDefault`. -/
def PyDateTime.epochSec (dt : PyDateTime) (offDefault : ℤ) : ℤ :=
  daysFromCivil dt.year dt.month dt.day * 86400 + dt.hour * 3600 + dt.minute * 60 + dt.second
    - dt.tzOffSec.getD offDefault

/-- An aware UTC datetime from epoch seconds, carrying the microsecond part unchanged. -/
def dtFromEpoch (e : ℤ) (usec : ℤ) : PyDateTime :=
  let days := Int.fdiv e 86400
  let rem := e - days * 86400
  let c := civilFromDays days
  ⟨c.1, c.2.1, c.2.2, Int.fdiv rem 3600, Int.fdiv (Int.emod rem 3600) 60, Int.emod rem 60,
    usec, some 0⟩

/-- `dt.astimezone(timezone.utc)`; a naive `dt` is interpreted in the system local timezone
`localOff` (modelled as a fixed offset). -/
def astimezoneUTC (localOff : ℤ) (dt : PyDateTime) : PyDateTime :=
  dtFromEpoch (dt.epochSec localOff) dt.usec

/-- Comparison key of an aware datetime (microsecond precision). -/
def PyDateTime.instant (dt : PyDateTime) : ℤ :=
  dt.epochSec 0 * 1000000 + dt.usec

/-- `sorted(candidates)[0]`: the leftmost minimum under aware-datetime comparison. -/
def earliestAux : PyDateTime → List PyDateTime → PyDateTime
  | best, [] => best
  | best, x :: xs => earliestAux (if x.instant < best.instant then x else best) xs

def pad2 (n : ℤ) : String :=
  if n < 10 then "0" ++ toString n else toString n

def pad4 (n : ℤ) : String :=
  if n < 10 then "000" ++ toString n
  else if n < 100 then "00" ++ toString n
  else if n < 1000 then "0" ++ toString n
  else toString n

/-- `YYYY-MM-DDTHH:MM:SSZ` rendering of an aware-UTC datetime (strftime
`%Y-%m-%dT%H:%M:%SZ`; also what `isoformat` produces after `replace(microsecond=0)` and
`replace("+00:00", "Z")` for years 1..9999). -/
def fmtYmdHMSZ (u : PyDateTime) : String :=
  pad4 u.year ++ "-" ++ pad2 u.month ++ "-" ++ pad2 u.day ++ "T" ++ pad2 u.hour ++ ":" ++
    pad2 u.minute ++ ":" ++ pad2 u.second ++ "Z"

/-- `_format_datetime`: UTC at one-second precision, `YYYY-MM-DDTHH:MM:SSZ`. -/
def format_datetime (localOff : ℤ) (value : PyDateTime) : String :=
  fmtYmdHMSZ (astimezoneUTC localOff value)

-- ### asset_id.py

structure HashInfo where
  algo : String
  value : String
deriving DecidableEq

structure AssetIdentity where
  asset_id : String
  hash : Option HashInfo
  hash_quality : Option String
deriving DecidableEq

/-- A local file as `derive_local_asset_identity` observes it: name, content bytes, and
`st_mtime` (epoch seconds plus sub-second microseconds). -/
structure LocalFile where
  name : String
  content : List ℕ
  mtimeEpochSec : ℤ
  mtimeUsec : ℤ

/-- The external hashing library (hashlib): hex digests as functions of the hashed bytes.
`md5Hex` takes the UTF-8 payload string. -/
structure HashOracle where
  sha256Hex : List ℕ → String
  md5Hex : String → String

/-- `compute_sha256`: the streaming chunked read digests exactly the file's content. -/
def compute_sha256 (o : HashOracle) (f : LocalFile) : String :=
  o.sha256Hex f.content

/-- `compute_weak_signature`: deterministic weak fingerprint of
`filename|size-or-unknown|modified-time-at-second-precision-UTC-or-missing`. -/
def compute_weak_signature (md5Hex : String → String) (filename : String)
    (size_bytes : Option ℤ) (modified_time : Option PyDateTime) : String :=
  let size_component := match size_bytes with
    | some n => toString n
    | none => "unknown"
  let modified_component := match modified_time with
    | some mt0 =>
      let mt := if mt0.tzOffSec = none then { mt0 with tzOffSec := some 0 } else mt0
      fmtYmdHMSZ (astimezoneUTC 0 mt)
    | none => "missing"
  md5Hex (filename ++ "|" ++ size_component ++ "|" ++ modified_component)

/-- `derive_local_asset_identity` with the default threshold made explicit. -/
def derive_local_asset_identity (o : HashOracle) (f : LocalFile)
    (max_bytes_for_strong_hash : Option ℤ) : AssetIdentity :=
  let size_bytes : ℤ := f.content.length
  let modified_time := dtFromEpoch f.mtimeEpochSec f.mtimeUsec
  let do_strong := match max_bytes_for_strong_hash with
    | none => true
    | some m => size_bytes ≤ m
  if do_strong then
    let sha := compute_sha256 o f
    ⟨"sha256:" ++ sha, some ⟨"sha256", sha⟩, some "strong"⟩
  else
    let weak := compute_weak_signature o.md5Hex f.name (some size_bytes) (some modified_time)
    ⟨"weak:" ++ weak, some ⟨"weak", weak⟩, some "weak"⟩

-- ### Python string renderings (str(), repr(), json.dumps with default separators)

def fracString (n : ℤ) (k : ℕ) : String :=
  let s0 := toString n.natAbs
  let s := String.mk (List.replicate (k + 1 - s0.length) '0') ++ s0
  (if n < 0 then "-" else "") ++ s.dropRight k ++ "." ++ s.takeRight k

/-- Best-effort model of `repr(float)` for the finite decimals that arise from JSON text:
the shortest plain decimal expansion.  (CPython's shortest-roundtrip repr and its scientific
notation for extreme magnitudes are outside the model.) -/
def floatRepr (q : ℚ) : String :=
  if q.den = 1 then toString q.num ++ ".0"
  else match (List.range 18).find? (fun k => (q * (10 : ℚ) ^ k).den = 1) with
    | some k => fracString (q * (10 : ℚ) ^ k).num k
    | none => toString q.num ++ "/" ++ toString q.den

def jsonEscapeChar (c : Char) : String :=
  if c = '"' then "\\\""
  else if c = '\\' then "\\\\"
  else if c = '\n' then "\\n"
  else if c = '\t' then "\\t"
  else if c = '\r' then "\\r"
  else String.mk [c]

def jsonQuote (s : String) : String :=
  "\"" ++ String.join (s.toList.map jsonEscapeChar) ++ "\""

mutual

/-- `json.dumps` with default separators (", " and ": "). -/
def jsonDumps : JVal → String
  | .null => "null"
  | .bool b => if b then "true" else "false"
  | .int n => toString n
  | .float q => floatRepr q
  | .str s => jsonQuote s
  | .arr xs => "[" ++ String.intercalate ", " (jsonDumpsList xs) ++ "]"
  | .obj fs => "\x7b" ++ String.intercalate ", " (jsonDumpsFields fs) ++ "\x7d"

def jsonDumpsList : List JVal → List String
  | [] => []
  | x :: xs => jsonDumps x :: jsonDumpsList xs

def jsonDumpsFields : List (String × JVal) → List String
  | [] => []
  | f :: fs => (jsonQuote f.1 ++ ": " ++ jsonDumps f.2) :: jsonDumpsFields fs

end

mutual

/-- Best-effort `repr(value)` for containers (string escaping inside repr is out of scope). -/
def pyRepr : JVal → String
  | .null => "None"
  | .bool b => if b then "True" else "False"
  | .int n => toString n
  | .float q => floatRepr q
  | .str s => "'" ++ s ++ "'"
  | .arr xs => "[" ++ String.intercalate ", " (pyReprList xs) ++ "]"
  | .obj fs => "\x7b" ++ String.intercalate ", " (pyReprFields fs) ++ "\x7d"

def pyReprList : List JVal → List String
  | [] => []
  | x :: xs => pyRepr x :: pyReprList xs

def pyReprFields : List (String × JVal) → List String
  | [] => []
  | f :: fs => ("'" ++ f.1 ++ "': " ++ pyRepr f.2) :: pyReprFields fs

end

/-- Python `str(value)`. -/
def pyStr : JVal → String
  | .null => "None"
  | .bool b => if b then "True" else "False"
  | .int n => toString n
  | .float q => floatRepr q
  | .str s => s
  | .arr xs => pyRepr (.arr xs)
  | .obj fs => pyRepr (.obj fs)

-- ### datetime string parsing (`_parse_datetime` and its helpers)

def parseNDigits : ℕ → List Char → ℕ → Option (ℕ × List Char)
  | 0, cs, acc => some (acc, cs)
  | n + 1, c :: rest, acc =>
    if c.isDigit then parseNDigits n rest (10 * acc + digitVal c) else none
  | _ + 1, [], _ => none

def expectChar (c : Char) : List Char → Option (List Char)
  | x :: rest => if x = c then some rest else none
  | [] => none

/-- A 1-to-6-digit fraction, scaled to microseconds (`%f` semantics). -/
def parseFrac (cs : List Char) : Option (ℤ × List Char) :=
  let digits := cs.takeWhile Char.isDigit
  if digits.length = 0 ∨ 6 < digits.length then none
  else
    let v := digits.foldl (fun acc c => 10 * acc + digitVal c) 0
    some ((v * 10 ^ (6 - digits.length) : ℕ), cs.dropWhile Char.isDigit)

/-- A UTC-offset suffix `±HH[[:]MM[[:]SS]]` (optionally the literal `Z` when `allowZ`),
returning the offset in seconds.  Offsets must stay inside Python's ±24 h bound. -/
def parseTzOffset (allowZ : Bool) (cs : List Char) : Option (ℤ × List Char) :=
  match cs with
  | [] => none
  | c :: rest =>
    if allowZ ∧ c = 'Z' then some (0, rest)
    else if c = '+' ∨ c = '-' then do
      let hh ← parseNDigits 2 rest 0
      if 23 < hh.1 then none
      else
        let step := fun (cs2 : List Char) => do
          let cs3 := match expectChar ':' cs2 with
            | some r => r
            | none => cs2
          let p ← parseNDigits 2 cs3 0
          if 59 < p.1 then none else some p
        match step hh.2 with
        | none => some ((if c = '-' then -(3600 * hh.1 : ℤ) else (3600 * hh.1 : ℤ)), hh.2)
        | some mm =>
          match step mm.2 with
          | none =>
            let v : ℤ := 3600 * hh.1 + 60 * mm.1
            some ((if c = '-' then -v else v), mm.2)
          | some ss =>
            let v : ℤ := 3600 * hh.1 + 60 * mm.1 + ss.1
            some ((if c = '-' then -v else v), ss.2)
    else none

def isLeapYear (y : ℤ) : Bool :=
  (Int.emod y 4 = 0 ∧ Int.emod y 100 ≠ 0) ∨ Int.emod y 400 = 0

def daysInMonth (y m : ℤ) : ℤ :=
  if m = 2 then (if isLeapYear y then 29 else 28)
  else if m = 4 ∨ m = 6 ∨ m = 9 ∨ m = 11 then 30
  else 31

def validDT (y mo d h mi s : ℤ) : Bool :=
  1 ≤ y ∧ y ≤ 9999 ∧ 1 ≤ mo ∧ mo ≤ 12 ∧ 1 ≤ d ∧ d ≤ daysInMonth y mo ∧
    0 ≤ h ∧ h ≤ 23 ∧ 0 ≤ mi ∧ mi ≤ 59 ∧ 0 ≤ s ∧ s ≤ 59

def mkDT (y mo d h mi s : ℕ) (us : ℤ) (tz : Option ℤ) : Option PyDateTime :=
  if validDT y mo d h mi s then some ⟨y, mo, d, h, mi, s, us, tz⟩ else none

/-- `datetime.fromisoformat` over the delimited subset the code relies on:
`YYYY-MM-DD[<sep>HH[:MM[:SS[.ffffff]]][offset]]` with any single separator character.
(Python 3.11's basic/compact and week-date forms are outside the model.) -/
def fromisoformat (s : String) : Option PyDateTime := do
  let p1 ← parseNDigits 4 s.toList 0
  let cs ← expectChar '-' p1.2
  let p2 ← parseNDigits 2 cs 0
  let cs ← expectChar '-' p2.2
  let p3 ← parseNDigits 2 cs 0
  match p3.2 with
  | [] => mkDT p1.1 p2.1 p3.1 0 0 0 0 none
  | _ :: timeCs => do
    let ph ← parseNDigits 2 timeCs 0
    let (mi, sec, us, cs4) ← (do
      match expectChar ':' ph.2 with
      | none => some (0, 0, (0 : ℤ), ph.2)
      | some csm => do
        let pm ← parseNDigits 2 csm 0
        match expectChar ':' pm.2 with
        | none => some (pm.1, 0, (0 : ℤ), pm.2)
        | some css => do
          let ps ← parseNDigits 2 css 0
          match ps.2 with
          | '.' :: fr => do
            let pf ← parseFrac fr
            some (pm.1, ps.1, pf.1, pf.2)
          | ',' :: fr => do
            let pf ← parseFrac fr
            some (pm.1, ps.1, pf.1, pf.2)
          | other => some (pm.1, ps.1, (0 : ℤ), other))
    let (tz, cs5) ← (match cs4 with
      | [] => some ((none : Option ℤ), ([] : List Char))
      | l => (parseTzOffset false l).map (fun p => (some p.1, p.2)))
    if cs5.isEmpty then mkDT p1.1 p2.1 p3.1 ph.1 mi sec us tz else none

/-- `datetime.strptime` for the fixed fallback formats
`%Y-%m-%d[ T]%H:%M:%S[.%f][%z]` used by `_parse_datetime`. -/
def strptimeYmdHMS (sepT : Bool) (withFrac : Bool) (withTz : Bool) (s : String) :
    Option PyDateTime := do
  let p1 ← parseNDigits 4 s.toList 0
  let cs ← expectChar '-' p1.2
  let p2 ← parseNDigits 2 cs 0
  let cs ← expectChar '-' p2.2
  let p3 ← parseNDigits 2 cs 0
  let cs ← expectChar (if sepT then 'T' else ' ') p3.2
  let ph ← parseNDigits 2 cs 0
  let cs ← expectChar ':' ph.2
  let pm ← parseNDigits 2 cs 0
  let cs ← expectChar ':' pm.2
  let ps ← parseNDigits 2 cs 0
  let (us, cs4) ← (if withFrac then do
      let cs3 ← expectChar '.' ps.2
      parseFrac cs3
    else some ((0 : ℤ), ps.2))
  let (tz, cs5) ← (if withTz then (parseTzOffset true cs4).map (fun p => (some p.1, p.2))
    else some ((none : Option ℤ), cs4))
  if cs5.isEmpty then mkDT p1.1 p2.1 p3.1 ph.1 pm.1 ps.1 us tz else none

/-- Trailing normalisation shared by every `_parse_datetime` branch: a naive result is
stamped UTC, then converted with `astimezone(timezone.utc)`. -/
def ensureAwareUTC (dt0 : PyDateTime) : PyDateTime :=
  let dt := if dt0.tzOffSec = none then { dt0 with tzOffSec := some 0 } else dt0
  astimezoneUTC 0 dt

/-- `_parse_datetime`: ISO-8601 first (after replacing `Z` with `+00:00`), then the fixed
list of fallback formats, each result normalised to aware UTC. -/
def parse_datetime (value0 : String) : Option PyDateTime :=
  let value := pyStrip value0
  match fromisoformat (pyReplace value "Z" "+00:00") with
  | some dt => some (ensureAwareUTC dt)
  | none =>
    let r := strptimeYmdHMS false false true value
    let r := match r with | some _ => r | none => strptimeYmdHMS false false false value
    let r := match r with | some _ => r | none => strptimeYmdHMS true false true value
    let r := match r with | some _ => r | none => strptimeYmdHMS true false false value
    let r := match r with | some _ => r | none => strptimeYmdHMS true true true value
    let r := match r with | some _ => r | none => strptimeYmdHMS true true false value
    r.map ensureAwareUTC

-- ### Exceptions

inductive PyErr where
  | attributeError
  | typeError
  | valueError (msg : String)
  | validationError
deriving DecidableEq

-- ### Python equality and ordering (used by `payload.sort(key=...)`)

mutual

/-- Python `==` over JSON values.  Numbers (bool included) compare by value; dict equality is
modelled order-sensitively (dict keys are unique and insertion-ordered in every input the
parser builds). -/
def pyEq : JVal → JVal → Bool
  | a, b =>
    match numVal a, numVal b with
    | some x, some y => decide (x = y)
    | _, _ =>
      match a, b with
      | .null, .null => true
      | .str s, .str t => s = t
      | .arr xs, .arr ys => pyEqList xs ys
      | .obj fs, .obj gs => pyEqFields fs gs
      | _, _ => false

def pyEqList : List JVal → List JVal → Bool
  | [], [] => true
  | x :: xs, y :: ys => pyEq x y ∧ pyEqList xs ys
  | _, _ => false

def pyEqFields : List (String × JVal) → List (String × JVal) → Bool
  | [], [] => true
  | f :: fs, g :: gs => f.1 = g.1 ∧ pyEq f.2 g.2 ∧ pyEqFields fs gs
  | _, _ => false

end

mutual

/-- Python `<` over JSON values; mixed non-numeric types raise `TypeError`. -/
def pyLt : JVal → JVal → Except PyErr Bool
  | a, b =>
    match numVal a, numVal b with
    | some x, some y => .ok (decide (x < y))
    | _, _ =>
      match a, b with
      | .str s, .str t => .ok (decide (s < t))
      | .arr xs, .arr ys => pyLtList xs ys
      | _, _ => .error .typeError

def pyLtList : List JVal → List JVal → Except PyErr Bool
  | [], [] => .ok false
  | [], _ :: _ => .ok true
  | _ :: _, [] => .ok false
  | x :: xs, y :: ys => if pyEq x y then pyLtList xs ys else pyLt x y

end

/-- Stable insertion of a later element into an already-sorted prefix: it lands before the
first strictly greater element, after any equal one. -/
def insert_by_m {α : Type} (lt : α → α → Except PyErr Bool) (x : α) :
    List α → Except PyErr (List α)
  | [] => .ok [x]
  | y :: ys => do
    let b ← lt x y
    if b then .ok (x :: y :: ys)
    else do
      let rest ← insert_by_m lt x ys
      .ok (y :: rest)

/-- Stable sort (Python `list.sort`) in the exception monad. -/
def sort_by_m {α : Type} (lt : α → α → Except PyErr Bool) (l : List α) :
    Except PyErr (List α) :=
  l.foldlM (fun acc x => insert_by_m lt x acc) []

-- ### ffprobe_parser.py: data shapes

/-- `SourceContext`. -/
structure SourceContext where
  type : String
  uri : String
  filename : String
  size_bytes : Option ℤ
  asset_id : String
  created_time : Option PyDateTime
  modified_time : Option PyDateTime
  hash : Option HashInfo
  hash_quality : Option String
  source_etag : Option String
  drive_md5 : Option String

/-- One normalised entry of the sidecar's `streams` list.  Fields the source copies through
unconverted (`index`, the `or "unknown"` codec) stay `JVal`-typed, as the Python dict holds
whatever the raw stream carried. -/
structure StreamEntry where
  index : JVal
  type : String
  codec : JVal
  avg_frame_rate : Option String
  r_frame_rate : Option String
  width_px : Option ℤ
  height_px : Option ℤ
  channels : Option ℤ
  sample_rate_hz : Option ℤ
  bitrate_kbps : Option ℤ
  disposition_default : Option Bool
  tags : List (String × String)

/-- `{**stream, "__payload": entry}`: the raw stream dict together with its payload entry. -/
structure TaggedStream where
  raw : List (String × JVal)
  payload : StreamEntry

structure VideoSummary where
  codec : JVal
  profile : JVal
  width_px : ℤ
  height_px : ℤ
  pixel_aspect_ratio : ℚ
  frame_rate_fps : Option ℚ
  color_space : JVal
  color_transfer : JVal
  color_primaries : JVal

structure AudioSummary where
  codec : JVal
  channels : ℤ
  sample_rate_hz : ℤ
  bitrate_kbps : Option ℤ

structure Thumb where
  timestamp_s : ℚ
  path : String
  width_px : ℤ
  height_px : ℤ
deriving DecidableEq

structure ThumbManifest where
  poster : Thumb
  samples : List Thumb
deriving DecidableEq

structure SidecarSource where
  type : String
  uri : String
  filename : String
  size_bytes : Option ℤ
  created_time : String
  modified_time : Option String
  hash : Option HashInfo

structure SidecarFormat where
  container : JVal
  duration_s : ℚ
  bitrate_kbps : Option ℤ
  tags : List (String × String)

structure Provenance where
  ingested_at : String
  ffprobe : String
  ffmpeg : String
  parser : String
  selection_policy_video : String
  selection_policy_audio : String
  hash_quality : Option String
  source_etag : Option String
  drive_md5 : Option String

/-- The canonical sidecar document. -/
structure Sidecar where
  schema_version : String
  asset_id : String
  source : SidecarSource
  format : SidecarFormat
  video : Option VideoSummary
  audio : Option AudioSummary
  streams : List StreamEntry
  thumbnails : ThumbManifest
  provenance : Provenance
  warnings : List String
  errors : List String

/-- Modelled from the spec: the build-fixed schema version literal lives in the ingest
package module, which is not present under src/; the repository's tests pin it to "0.1.0". -/
def SCHEMA_VERSION : String := "0.1.0"

def PARSER_VERSION : String := "heimdex.ingest/0.1.0"

/-- The ambient state `parse_ffprobe_json` reads besides its arguments: the wall clock, the
system local timezone (for `astimezone` on naive datetimes) and the memoized tool-version
strings from `_binary_version`. -/
structure IngestEnv where
  now : PyDateTime
  localOffSec : ℤ
  ffprobe_version : String
  ffmpeg_version : String

-- ### ffprobe_parser.py: helpers

/-- `_normalise_tags`. -/
def normalise_tags (tags : JVal) : Except PyErr (List (String × String)) :=
  if ¬ tags.truthy then .ok []
  else match tags with
    | .obj fs =>
      .ok (fs.filterMap (fun p =>
        match p.2 with
        | .null => none
        | .str s => some (p.1, s)
        | .arr xs => some (p.1, jsonDumps (.arr xs))
        | .obj gs => some (p.1, jsonDumps (.obj gs))
        | v => some (p.1, pyStr v)))
    | _ => .error .attributeError

/-- `_parse_duration`. -/
def parse_duration (raw_value : JVal) : ℚ × Option String :=
  if isNullNAEmpty raw_value then (0, some "duration_unavailable")
  else match pyFloat raw_value with
    | some q => (q, none)
    | none => (0, some "duration_unavailable")

/-- `_parse_bitrate_kbps`: `int(round(int(raw_value) / 1000))` under true division. -/
def parse_bitrate_kbps (raw_value : JVal) : Option ℤ :=
  if isNullNAEmpty raw_value then none
  else match pyIntConv raw_value with
    | some n => some (roundHalfEven ((n : ℚ) / 1000))
    | none => none

/-- `_normalise_stream_type`. -/
def normalise_stream_type : JVal → String
  | .str s =>
    let l := pyLower s
    if l = "video" ∨ l = "audio" ∨ l = "data" ∨ l = "subtitle" then l else "other"
  | _ => "other"

/-- `_int_or_none`. -/
def int_or_none (value : JVal) : Option ℤ :=
  if isNullNAEmpty value then none else pyIntConv value

/-- `_disposition_default`. -/
def disposition_default : JVal → Option Bool
  | .obj fs =>
    match dgetOr fs "default" .null with
    | .null => none
    | v => some v.truthy
  | _ => none

/-- Is `value` the given string literal (Python `==` against a string)? -/
def isStrEq (value : JVal) (t : String) : Bool :=
  match value with
  | .str s => s = t
  | _ => false

/-- `_rational_string`. -/
def rational_string (value : JVal) : Option String :=
  if ¬ value.truthy ∨ isStrEq value "N/A" then none
  else some (pyStr value)

def splitOnFirst (s : String) (c : Char) : String × String :=
  let l := s.toList
  ((l.takeWhile (fun x => x ≠ c)).asString, ((l.dropWhile (fun x => x ≠ c)).drop 1).asString)

/-- `_parse_rational`.  `math.isclose(d, 0.0)` with its default tolerances (rel_tol=1e-9,
abs_tol=0.0) holds exactly when `d = 0`, which is how the zero test is modelled. -/
def parse_rational (value : Option String) : Option ℚ :=
  match value with
  | none => none
  | some v =>
    if v = "" ∨ v = "0/0" ∨ v = "N/A" then none
    else if ¬ (v.toList.contains '/') then
      match pyFloatOfString v with
      | some q => some (pyRoundTo 2 q)
      | none => none
    else
      let parts := splitOnFirst v '/'
      match pyFloatOfString parts.1, pyFloatOfString parts.2 with
      | some num, some den => if den = 0 then none else some (pyRoundTo 2 (num / den))
      | _, _ => none

/-- `_frame_rate_from_stream`: the average-rate field first, the real/base-rate field second. -/
def frame_rate_from_stream (payload : StreamEntry) : Option ℚ :=
  match parse_rational payload.avg_frame_rate with
  | some rate => some rate
  | none => parse_rational payload.r_frame_rate

/-- `_parse_sample_aspect_ratio`. -/
def parse_sample_aspect_ratio (value : JVal) : ℚ :=
  if ¬ value.truthy ∨ isStrEq value "0:1" ∨ isStrEq value "N/A" then 1
  else match value with
    | .int n => if (n : ℚ) = 0 then 1 else (n : ℚ)
    | .float q => if q = 0 then 1 else q
    | .bool b => if (if b then (1 : ℚ) else 0) = 0 then 1 else (if b then 1 else 0)
    | .str s =>
      if s.toList.contains ':' then
        let parts := splitOnFirst s ':'
        match pyFloatOfString parts.1, pyFloatOfString parts.2 with
        | some num, some den =>
          if den = 0 then 1
          else if num / den > 0 then num / den else 1
        | _, _ => 1
      else 1
    | _ => 1

-- ### ffprobe_parser.py: streams

/-- Iterating a Python value in a `for` loop: a list yields its elements, a dict its keys,
a string its characters; other scalars raise `TypeError`. -/
def py_iter_items : JVal → Except PyErr (List JVal)
  | .arr xs => .ok xs
  | .obj fs => .ok (fs.map (fun p => JVal.str p.1))
  | .str s => .ok (s.toList.map (fun c => JVal.str (String.mk [c])))
  | _ => .error .typeError

/-- The per-stream body of `_parse_streams`; `.get` on a non-dict raises `AttributeError`. -/
def parse_one_stream (stream : JVal) : Except PyErr TaggedStream :=
  match stream with
  | .obj fs => do
    let stream_type := normalise_stream_type (dgetOr fs "codec_type" .null)
    let avg_frame_rate := rational_string (dgetOr fs "avg_frame_rate" .null)
    let r_frame_rate := rational_string (dgetOr fs "r_frame_rate" .null)
    let tags ← normalise_tags (dgetOr fs "tags" .null)
    let codecRaw := dgetOr fs "codec_name" .null
    let entry : StreamEntry :=
      { index := dgetOr fs "index" (.int 0)
        type := stream_type
        codec := if codecRaw.truthy then codecRaw else .str "unknown"
        avg_frame_rate := avg_frame_rate
        r_frame_rate := r_frame_rate
        width_px := int_or_none (dgetOr fs "width" .null)
        height_px := int_or_none (dgetOr fs "height" .null)
        channels := int_or_none (dgetOr fs "channels" .null)
        sample_rate_hz := int_or_none (dgetOr fs "sample_rate" .null)
        bitrate_kbps := parse_bitrate_kbps (dgetOr fs "bit_rate" .null)
        disposition_default := disposition_default (dgetOr fs "disposition" .null)
        tags := tags }
    .ok ⟨fs, entry⟩
  | _ => .error .attributeError

/-- `_parse_streams`: normalise every stream, sort the payload entries by `index`
(Python comparison semantics), and split out the video/audio streams in original order. -/
def parse_streams (streams : JVal) :
    Except PyErr (List StreamEntry × List TaggedStream × List TaggedStream) := do
  let items ← py_iter_items streams
  let tagged ← items.mapM parse_one_stream
  let payload ← sort_by_m (fun a b => pyLt a.index b.index) (tagged.map (·.payload))
  let video_streams := tagged.filter (fun t => t.payload.type = "video")
  let audio_streams := tagged.filter (fun t => t.payload.type = "audio")
  .ok (payload, video_streams, audio_streams)

-- ### ffprobe_parser.py: stream selection and summaries

/-- The `disposition-default = True` test used by both selectors. -/
def is_default_stream (s : TaggedStream) : Bool :=
  disposition_default (dgetOr s.raw "disposition" .null) = some true

/-- `width * height` score (`or 0` on missing dimensions). -/
def score_video (item : TaggedStream) : ℤ :=
  item.payload.width_px.getD 0 * item.payload.height_px.getD 0

/-- Python `max(iterable, key=f)`: keeps the first item, replacing it only on a strictly
greater key, so ties resolve to the earliest element. -/
def max_by_score (f : TaggedStream → ℤ) : TaggedStream → List TaggedStream → TaggedStream
  | best, [] => best
  | best, x :: xs => max_by_score f (if f best < f x then x else best) xs

/-- `_select_video_stream` on a nonempty list `hd :: tl`. -/
def select_video_stream (hd : TaggedStream) (tl : List TaggedStream) : TaggedStream :=
  match (hd :: tl).filter is_default_stream with
  | d :: _ => d
  | [] => max_by_score score_video hd tl

/-- `(channels, sample_rate)` score for audio selection. -/
def score_audio (item : TaggedStream) : ℤ × ℤ :=
  (item.payload.channels.getD 0, item.payload.sample_rate_hz.getD 0)

def lexLtPair (a b : ℤ × ℤ) : Bool :=
  a.1 < b.1 ∨ (a.1 = b.1 ∧ a.2 < b.2)

def max_by_audio : TaggedStream → List TaggedStream → TaggedStream
  | best, [] => best
  | best, x :: xs =>
    max_by_audio (if lexLtPair (score_audio best) (score_audio x) then x else best) xs

/-- `_select_audio_stream` on a nonempty list `hd :: tl`. -/
def select_audio_stream (hd : TaggedStream) (tl : List TaggedStream) : TaggedStream :=
  match (hd :: tl).filter is_default_stream with
  | d :: _ => d
  | [] => max_by_audio hd tl

/-- `_summarise_video_stream`. -/
def summarise_video_stream : List TaggedStream → Option VideoSummary × Option String
  | [] => (none, none)
  | hd :: tl =>
    let selected := select_video_stream hd tl
    let payload := selected.payload
    let sample_aspect_ratio := dgetOr selected.raw "sample_aspect_ratio" .null
    let frame_rate := frame_rate_from_stream payload
    let warning := if frame_rate.isNone then some "frame_rate_unavailable" else none
    let pixel_aspect_ratio := parse_sample_aspect_ratio sample_aspect_ratio
    (some
      { codec := payload.codec
        profile := dgetOr selected.raw "profile" .null
        width_px := payload.width_px.getD 0
        height_px := payload.height_px.getD 0
        pixel_aspect_ratio := pixel_aspect_ratio
        frame_rate_fps := frame_rate
        color_space := dgetOr selected.raw "color_space" .null
        color_transfer := dgetOr selected.raw "color_transfer" .null
        color_primaries := dgetOr selected.raw "color_primaries" .null }, warning)

/-- `_summarise_audio_stream`. -/
def summarise_audio_stream : List TaggedStream → Option AudioSummary × Option String
  | [] => (none, some "no_audio_stream")
  | hd :: tl =>
    let selected := select_audio_stream hd tl
    let payload := selected.payload
    (some
      { codec := payload.codec
        channels := payload.channels.getD 0
        sample_rate_hz := payload.sample_rate_hz.getD 0
        bitrate_kbps := payload.bitrate_kbps }, none)

-- ### ffprobe_parser.py: creation time

def tag_keys : List String := ["com.apple.quicktime.creationdate", "creation_time", "date"]

def sgetStr (tags : List (String × String)) (k : String) : Option String :=
  (tags.find? (fun p => p.1 = k)).map (·.2)

/-- The candidate scan over one normalised tag map: each key of `tag_keys` in order, truthy
values only, parsed with `_parse_datetime`. -/
def scan_tag_map (tags : List (String × String)) : List PyDateTime :=
  tag_keys.filterMap (fun key =>
    match sgetStr tags key with
    | some value => if value = "" then none else parse_datetime value
    | none => none)

/-- `_determine_created_time`.  `streams` is the (video ++ audio) list the caller passes;
the stream tags are re-normalised there just as in the source. -/
def determine_created_time (localOff : ℤ) (source_ctx : SourceContext)
    (format_tags : List (String × String)) (streams : List TaggedStream)
    (default_fallback : PyDateTime) : Except PyErr PyDateTime :=
  match source_ctx.created_time with
  | some t => .ok (astimezoneUTC localOff t)
  | none => do
    let fmtCands := scan_tag_map format_tags
    let streamTagMaps ← streams.mapM (fun s => normalise_tags (dgetOr s.raw "tags" .null))
    let candidates := fmtCands ++ (streamTagMaps.map scan_tag_map).flatten
    match candidates with
    | c :: cs => .ok (earliestAux c cs)
    | [] =>
      match source_ctx.modified_time with
      | some m => .ok (astimezoneUTC localOff m)
      | none => .ok default_fallback

-- ### ffprobe_parser.py: thumbnail manifest seeding and assembly

/-- `_initial_thumbnail_manifest`. -/
def initial_thumbnail_manifest (duration_s : ℚ) : ThumbManifest :=
  let poster_time := if duration_s ≠ 0 ∧ 0 < duration_s then duration_s / 2 else 0
  { poster := { timestamp_s := pyRoundTo 3 poster_time, path := "", width_px := 0, height_px := 0 }
    samples :=
      if 60 ≤ duration_s then
        [ { timestamp_s := pyRoundTo 3 (duration_s * (2 / 10)), path := "", width_px := 0,
            height_px := 0 },
          { timestamp_s := pyRoundTo 3 (duration_s * (8 / 10)), path := "", width_px := 0,
            height_px := 0 } ]
      else [] }

/-- `sorted(set(ws))`. -/
def sorted_dedup (ws : List String) : List String :=
  (ws.dedup).insertionSort (· ≤ ·)

def jvalIsStr : JVal → Bool
  | .str _ => true
  | _ => false

def jvalIsOptStr : JVal → Bool
  | .null => true
  | .str _ => true
  | _ => false

/-- A value pydantic's lax mode accepts for an `int` field: an int, an integral float, or an
integer-literal string (bools are rejected for `int` fields in pydantic v2). -/
def jvalIntLike : JVal → Bool
  | .int _ => true
  | .float q => q.den = 1
  | .str s => (pyIntOfString s).isSome
  | _ => false

/-- `_validate_against_schema` / `Sidecar.model_validate`: the checks of the strict pydantic
shape that can actually fail on normaliser output (fields the normaliser types correctly by
construction always pass and are not re-checked). -/
def sidecarValid (sc : Sidecar) : Bool :=
  (decide (sc.source.type = "local" ∨ sc.source.type = "gdrive")) &&
  jvalIsStr sc.format.container &&
  sc.streams.all (fun e => jvalIntLike e.index && jvalIsStr e.codec) &&
  (match sc.video with
   | none => true
   | some v => jvalIsStr v.codec && jvalIsOptStr v.profile && jvalIsOptStr v.color_space &&
       jvalIsOptStr v.color_transfer && jvalIsOptStr v.color_primaries) &&
  (match sc.audio with
   | none => true
   | some a => jvalIsStr a.codec) &&
  (match sc.source.hash with
   | none => true
   | some h => decide (h.algo = "sha256" ∨ h.algo = "md5" ∨ h.algo = "weak")) &&
  (match sc.provenance.hash_quality with
   | none => true
   | some q => decide (q = "strong" ∨ q = "weak"))

/-- `format_info = raw.get("format") or {}`, failing with `AttributeError` at the first
`.get` when the truthy value is not a dict. -/
def coerce_format (raw : List (String × JVal)) : Except PyErr (List (String × JVal)) :=
  let formatVal := dgetOr raw "format" .null
  match (if formatVal.truthy then formatVal else .obj []) with
  | .obj fs => .ok fs
  | _ => .error .attributeError

/-- `raw.get("streams") or []`. -/
def coerce_streams (raw : List (String × JVal)) : JVal :=
  let streamsVal := dgetOr raw "streams" .null
  if streamsVal.truthy then streamsVal else .arr []

/-- The pure tail of `parse_ffprobe_json`: the sidecar dict assembled from the already
computed intermediate results (the ambient values passed field by field). -/
def assemble_sidecar (localOff : ℤ) (ffprobeV ffmpegV : String) (ingested_at : PyDateTime)
    (source_ctx : SourceContext) (format_info : List (String × JVal))
    (format_tags : List (String × String))
    (sp : List StreamEntry × List TaggedStream × List TaggedStream)
    (created_time : PyDateTime) : Sidecar :=
  let durP := parse_duration (dgetOr format_info "duration" .null)
  let warnings0 : List String := match durP.2 with
    | some w => [w]
    | none => []
  let bitrate_kbps := parse_bitrate_kbps (dgetOr format_info "bit_rate" .null)
  let videoP := summarise_video_stream sp.2.1
  let warnings1 := warnings0 ++ (match videoP.2 with
    | some w => [w]
    | none => [])
  let audioP := summarise_audio_stream sp.2.2
  let warnings2 := warnings1 ++ (match audioP.2 with
    | some w => [w]
    | none => [])
  let modified_time_iso := source_ctx.modified_time.map (format_datetime localOff)
  let fn := dgetOr format_info "format_name" .null
  let fln := dgetOr format_info "format_long_name" .null
  let container := if fn.truthy then fn else if fln.truthy then fln else .str "unknown"
  { schema_version := SCHEMA_VERSION
    asset_id := source_ctx.asset_id
    source :=
        { type := source_ctx.type
          uri := source_ctx.uri
          filename := source_ctx.filename
          size_bytes := source_ctx.size_bytes
          created_time := format_datetime localOff created_time
          modified_time := modified_time_iso
          hash := source_ctx.hash }
    format :=
        { container := container
          duration_s := durP.1
          bitrate_kbps := bitrate_kbps
          tags := format_tags }
    video := videoP.1
    audio := audioP.1
    streams := sp.1
    thumbnails := initial_thumbnail_manifest durP.1
    provenance :=
        { ingested_at := format_datetime localOff ingested_at
          ffprobe := ffprobeV
          ffmpeg := ffmpegV
          parser := PARSER_VERSION
          selection_policy_video := "first_default_or_highest_resolution"
          selection_policy_audio := "first_default_or_highest_channels"
          hash_quality := source_ctx.hash_quality
          source_etag := source_ctx.source_etag
          drive_md5 := source_ctx.drive_md5 }
    warnings := sorted_dedup warnings2
    errors := [] }

/-- `parse_ffprobe_json`: the fallible normalisation steps, assembly, and the final schema
self-check. -/
def parse_ffprobe_json (env : IngestEnv) (raw : List (String × JVal))
    (source_ctx : SourceContext) : Except PyErr Sidecar := do
  let ingested_at := env.now
  let format_info ← coerce_format raw
  let format_tags ← normalise_tags (dgetOr format_info "tags" .null)
  let sp ← parse_streams (coerce_streams raw)
  let created_time ← determine_created_time env.localOffSec source_ctx format_tags
    (sp.2.1 ++ sp.2.2) ingested_at
  let sidecar := assemble_sidecar env.localOffSec env.ffprobe_version env.ffmpeg_version
    ingested_at source_ctx format_info format_tags sp created_time
  if sidecarValid sidecar then .ok sidecar else .error .validationError

-- ### thumbnails.py

/-- Outcome of one external extraction attempt (`ffmpeg` then `cv2.imread`):
either both steps succeed with measured pixel dimensions, or the subprocess fails (having
possibly left a partial output file), or the produced image fails to decode. -/
inductive ExtractOutcome where
  | success (w h : ℤ)
  | subprocessFail (partialWritten : Bool)
  | decodeFail
deriving DecidableEq

/-- The external frame-extraction pipeline as an oracle: outcome per
(source path, seek timestamp, output path). -/
def ExtractOracle : Type := String → ℚ → String → ExtractOutcome

/-- `_extract_and_measure`, with the filesystem as an explicit set of paths.  On either
failure path any (partial or freshly written) output file is unlinked, so the path is absent
from the resulting filesystem. -/
def extract_and_measure (oracle : ExtractOracle) (video_path : String) (fs : List String)
    (timestamp : ℚ) (output_path : String) : Option (ℤ × ℤ) × List String :=
  match oracle video_path timestamp output_path with
  | .success w h => (some (w, h), if output_path ∈ fs then fs else output_path :: fs)
  | .subprocessFail _ => (none, fs.erase output_path)
  | .decodeFail => (none, fs.erase output_path)

/-- `_timestamp_to_centiseconds`. -/
def timestamp_to_centiseconds (timestamp_s : ℚ) : ℤ :=
  roundHalfEven (max timestamp_s 0 * 100)

/-- `%04d` for the nonnegative centisecond values the renderer produces. -/
def pad4d (n : ℤ) : String :=
  if n < 0 then toString n
  else if n < 10 then "000" ++ toString n
  else if n < 100 then "00" ++ toString n
  else if n < 1000 then "0" ++ toString n
  else toString n

/-- The slice of the sidecar dict `render_thumbnails` reads and writes. -/
structure RenderSidecar where
  asset_id : String
  thumbnails : ThumbManifest
  warnings : List String
deriving DecidableEq

/-- The output filename of a sample slot: its timestamp rounded to centiseconds,
zero-padded to 4 digits. -/
def sample_filename (t : Thumb) : String :=
  "t" ++ pad4d (timestamp_to_centiseconds t.timestamp_s) ++ ".jpg"

/-- The sample loop of `render_thumbnails`: returns the successfully rendered samples in
original order, the final filesystem, and the warnings added by failures. -/
def render_samples (oracle : ExtractOracle) (video_path thumbs_root asset_id : String) :
    List String → List Thumb → List Thumb × List String × List String
  | fs, [] => ([], fs, [])
  | fs, sample :: rest =>
    let timestamp := sample.timestamp_s
    let filename := sample_filename sample
    let sample_path := thumbs_root ++ "/" ++ filename
    let step := extract_and_measure oracle video_path fs timestamp sample_path
    let tail := render_samples oracle video_path thumbs_root asset_id step.2 rest
    match step.1 with
    | some wh =>
      ({ sample with
          path := "thumbs/" ++ asset_id ++ "/" ++ filename
          width_px := wh.1
          height_px := wh.2 } :: tail.1, tail.2.1, tail.2.2)
    | none => (tail.1, tail.2.1, "thumbnail_generation_failed" :: tail.2.2)

/-- `render_thumbnails`.  Raises `ValueError` on a falsy `asset_id`; otherwise renders the
poster slot (kept, degraded on failure) and the sample slots (dropped on failure). -/
def render_thumbnails (oracle : ExtractOracle) (video_path : String)
    (sidecar : RenderSidecar) (out_dir : String) (fs : List String) :
    Except PyErr (RenderSidecar × List String) :=
  if sidecar.asset_id = "" then .error (.valueError "sidecar missing asset_id")
  else
    let thumbs_root := out_dir ++ "/thumbs/" ++ sidecar.asset_id
    let poster := sidecar.thumbnails.poster
    let poster_path := thumbs_root ++ "/poster.jpg"
    let pstep := extract_and_measure oracle video_path fs poster.timestamp_s poster_path
    let posterRes : Thumb × List String := match pstep.1 with
      | some wh =>
        ({ poster with
            path := "thumbs/" ++ sidecar.asset_id ++ "/poster.jpg"
            width_px := wh.1
            height_px := wh.2 }, [])
      | none => ({ poster with path := "", width_px := 0, height_px := 0 },
          ["thumbnail_generation_failed"])
    let sstep := render_samples oracle video_path thumbs_root sidecar.asset_id pstep.2
      sidecar.thumbnails.samples
    .ok
      ({ asset_id := sidecar.asset_id
         thumbnails := { poster := posterRes.1, samples := sstep.1 }
         warnings := sorted_dedup (sidecar.warnings ++ posterRes.2 ++ sstep.2.2) },
       sstep.2.1)

-- ### Definitions used by the claim statements

/-- The two sidecar fields stamped from the ambient clock, blanked: `source.created_time`
(which falls back to the normalization instant when nothing else resolves) and
`provenance.ingested_at`. -/
def scrub_clock_fields (sc : Sidecar) : Sidecar :=
  { sc with
      source := { sc.source with created_time := "" }
      provenance := { sc.provenance with ingested_at := "" } }

def is_obj : JVal → Bool
  | .obj _ => true
  | _ => false

/-- A tags slot of the container type `_normalise_tags` handles without raising: a dict, or
any falsy value. -/
def tags_shapedB (v : JVal) : Bool := is_obj v || !v.truthy

/-- A raw stream entry of the expected container shape: a dict whose `tags` slot is
dict-or-falsy and whose `index` (defaulted to 0) is numeric, so the payload sort's key
comparisons cannot raise. -/
def stream_shapedB : JVal → Bool
  | .obj fs => tags_shapedB (dgetOr fs "tags" .null) && (numVal (dgetOr fs "index" (.int 0))).isSome
  | _ => false

/-- A probe document of the expected container shape: `format` dict-or-falsy with a
dict-or-falsy `tags` slot, and `streams` a list of shaped stream dicts (or falsy). -/
def raw_shapedB (raw : List (String × JVal)) : Bool :=
  (let f := dgetOr raw "format" .null
   (is_obj f || !f.truthy) &&
     (match f with
      | .obj fs => tags_shapedB (dgetOr fs "tags" .null)
      | _ => true)) &&
  (let s := dgetOr raw "streams" .null
   !s.truthy || (match s with
     | .arr xs => xs.all stream_shapedB
     | _ => false))

/-- Did the extraction of one sample slot succeed, as a function of the oracle? -/
def sample_outcome (oracle : ExtractOracle) (video_path thumbs_root : String) (t : Thumb) :
    ExtractOutcome :=
  oracle video_path t.timestamp_s (thumbs_root ++ "/" ++ sample_filename t)

/-- The enrichment a successful sample extraction writes into its slot. -/
def rendered_sample (asset_id : String) (t : Thumb) (w h : ℤ) : Thumb :=
  { t with
      path := "thumbs/" ++ asset_id ++ "/" ++ sample_filename t
      width_px := w
      height_px := h }

-- ### Concrete inputs for witnesses and counterexamples

def hashO : HashOracle :=
  ⟨fun bs => "H" ++ toString bs.length, fun s => "M" ++ toString s.length⟩

def fileA : LocalFile := ⟨"a.bin", [1, 2, 3], 1700000000, 0⟩

def fileB : LocalFile := ⟨"a.bin", [9, 9, 9], 1700000000, 500⟩

def ctx0 : SourceContext :=
  { type := "local", uri := "file:///a.mp4", filename := "a.mp4", size_bytes := some 10
    asset_id := "sha256:abc", created_time := none, modified_time := none
    hash := none, hash_quality := none, source_etag := none, drive_md5 := none }

def envA : IngestEnv :=
  { now := dtFromEpoch 1700000000 0, localOffSec := 0
    ffprobe_version := "ffprobe version 6.0", ffmpeg_version := "ffmpeg version 6.0" }

def envB : IngestEnv :=
  { now := dtFromEpoch 1700000001 0, localOffSec := 0
    ffprobe_version := "ffprobe version 6.0", ffmpeg_version := "ffmpeg version 6.0" }

/-- A probe document that is valid JSON but malformed as probe output: its `format` slot is
a string, so the source's `format_info.get("tags")` raises `AttributeError`. -/
def rawBadFormat : List (String × JVal) := [("format", .str "x")]

/-- SourceContext for the C3 counterexample: no explicit created time, modified time
2024-02-02T00:00:00Z. -/
def ctxC3 : SourceContext :=
  { type := "local", uri := "file:///s.mkv", filename := "s.mkv", size_bytes := some 2048
    asset_id := "sha256:abc", created_time := none
    modified_time := some (dtFromEpoch 1706832000 0)
    hash := none, hash_quality := none, source_etag := none, drive_md5 := none }

/-- Probe for the C3 counterexample: the only stream is a subtitle stream carrying a
`creation_time` tag of 2000-01-01T00:00:00Z. -/
def rawC3 : List (String × JVal) :=
  [("streams", .arr [
      .obj [("index", .int 0), ("codec_type", .str "subtitle"),
            ("tags", .obj [("creation_time", .str "2000-01-01T00:00:00Z")])]])]

/-- A video stream pair for the C4 witness: a 640×360 stream flagged default alongside a
non-default 1920×1080 stream. -/
def vsSmallDefault : TaggedStream :=
  { raw := [("index", .int 0), ("codec_type", .str "video"),
            ("disposition", .obj [("default", .int 1)])]
    payload :=
      { index := .int 0, type := "video", codec := .str "h264", avg_frame_rate := none
        r_frame_rate := none, width_px := some 640, height_px := some 360, channels := none
        sample_rate_hz := none, bitrate_kbps := none, disposition_default := some true
        tags := [] } }

def vsBigNonDefault : TaggedStream :=
  { raw := [("index", .int 1), ("codec_type", .str "video"),
            ("disposition", .obj [("default", .int 0)])]
    payload :=
      { index := .int 1, type := "video", codec := .str "h264", avg_frame_rate := none
        r_frame_rate := none, width_px := some 1920, height_px := some 1080, channels := none
        sample_rate_hz := none, bitrate_kbps := none, disposition_default := some false
        tags := [] } }

/-- The same pair with no default flags anywhere (resolution-based selection). -/
def vsSmallPlain : TaggedStream :=
  { vsSmallDefault with raw := [("index", .int 0), ("codec_type", .str "video")] }

def vsBigPlain : TaggedStream :=
  { vsBigNonDefault with raw := [("index", .int 1), ("codec_type", .str "video")] }

/-- Render-stage inputs for the C5 witness: a seeded manifest for a 60 s asset. -/
def renderSC : RenderSidecar :=
  { asset_id := "sha256:abc"
    thumbnails := initial_thumbnail_manifest 60
    warnings := [] }

/-- A render-stage sidecar whose `asset_id` is empty (falsy), as a gdrive-less caller could
pass after a failed identity derivation. -/
def renderSCEmpty : RenderSidecar :=
  { asset_id := ""
    thumbnails := initial_thumbnail_manifest 0
    warnings := [] }

/-- An extraction oracle that fails (leaving a partial file) exactly on the first sample
slot `t1200.jpg` and succeeds elsewhere with a 320×180 frame. -/
def oracleC5 : ExtractOracle := fun _ _ out_path =>
  if out_path = "out/thumbs/sha256:abc/t1200.jpg" then .subprocessFail true
  else .success 320 180


/-- A video stream entry whose only frame-rate opinions are `30000/1001` and `24/1`. -/
def pC6 : StreamEntry :=
  { index := .int 0, type := "video", codec := .str "h264"
    avg_frame_rate := some "30000/1001", r_frame_rate := some "24/1"
    width_px := some 1920, height_px := some 1080, channels := none, sample_rate_hz := none
    bitrate_kbps := none, disposition_default := none, tags := [] }

def defaultVideoSummary : VideoSummary := ⟨.null, .null, 0, 0, 1, none, .null, .null, .null⟩

def defaultSidecar : Sidecar :=
  assemble_sidecar 0 "" "" (dtFromEpoch 0 0) ctx0 [] [] ([], [], []) (dtFromEpoch 0 0)

/-- A probe whose single video stream carries no frame-rate fields at all. -/
def rawC6 : List (String × JVal) :=
  [("format", .obj [("duration", .str "10")]),
   ("streams", .arr [.obj [("index", .int 0), ("codec_type", .str "video"),
      ("codec_name", .str "h264")]])]

def scC6 : Sidecar :=
  match parse_ffprobe_json envA rawC6 ctx0 with
  | .ok sc => sc
  | .error _ => defaultSidecar

def vC6 : VideoSummary := scC6.video.getD defaultVideoSummary


/-- The sidecar the code produces for the C3 counterexample probe. -/
def scC3 : Sidecar :=
  match parse_ffprobe_json envA rawC3 ctxC3 with
  | .ok sc => sc
  | .error _ => defaultSidecar


/-- The `provenance.ingested_at` of a parse result (empty string on failure). -/
def parsedIngestedAt (r : Except PyErr Sidecar) : String :=
  match r with
  | .ok sc => sc.provenance.ingested_at
  | .error _ => ""

/-- Did an extraction outcome succeed? -/
def outcome_success : ExtractOutcome → Bool
  | .success _ _ => true
  | _ => false

/-- What one sample slot contributes to the returned samples list: its enriched slot on
success, nothing on failure. -/
def sample_render (asset_id : String) (t : Thumb) : ExtractOutcome → Option Thumb
  | .success w h => some (rendered_sample asset_id t w h)
  | _ => none

-- ### General lemmas

/-- Banker's rounding returns a nearest integer. -/
theorem roundHalfEven_nearest (q : ℚ) : |(roundHalfEven q : ℚ) - q| ≤ 1 / 2 := by
  have h0 : (⌊q⌋ : ℚ) ≤ q := Int.floor_le q
  have h1 : q < ⌊q⌋ + 1 := Int.lt_floor_add_one q
  unfold roundHalfEven
  dsimp only
  split_ifs with hl hg he <;> rw [abs_le] <;> constructor <;> push_cast <;> linarith

/-- Membership in `sorted(set(l))` is membership in `l`. -/
theorem mem_sorted_dedup {a : String} {l : List String} : a ∈ sorted_dedup l ↔ a ∈ l := by
  unfold sorted_dedup
  rw [List.Perm.mem_iff (List.perm_insertionSort _ _), List.mem_dedup]

-- ### Claim C10

/-- Claim C10 (confirmed): `compute_weak_signature` interprets a timezone-naive
`modified_time` as UTC — the naive datetime and the same wall-clock datetime stamped with an
explicit UTC offset produce the same weak signature. -/
theorem c10_weak_signature_naive_utc (md5Hex : String → String) (filename : String)
    (size_bytes : Option ℤ) (t : PyDateTime) :
    compute_weak_signature md5Hex filename size_bytes (some { t with tzOffSec := none }) =
      compute_weak_signature md5Hex filename size_bytes (some { t with tzOffSec := some 0 }) := by
  simp [compute_weak_signature]

-- ### Claim C8

/-- Claim C8 (confirmed): `derive_local_asset_identity` returns the strong
`"sha256:" + hex(content)` identity when the size is within the threshold or the threshold
is unbounded, and otherwise the weak `"weak:" + hex(md5("filename|size|mtime-second-UTC"))`
identity; strong ids depend only on content, weak ids only on
(filename, size, modified-second). -/
theorem c8_derive_local_asset_identity (o : HashOracle) (f g : LocalFile) (thr : Option ℤ) :
    ((thr = none ∨ ∃ m, thr = some m ∧ (f.content.length : ℤ) ≤ m) →
      derive_local_asset_identity o f thr =
        ⟨"sha256:" ++ o.sha256Hex f.content, some ⟨"sha256", o.sha256Hex f.content⟩,
          some "strong"⟩) ∧
    (∀ m, thr = some m → ¬ ((f.content.length : ℤ) ≤ m) →
      derive_local_asset_identity o f thr =
        ⟨"weak:" ++ o.md5Hex (f.name ++ "|" ++ toString (f.content.length : ℤ) ++ "|" ++
            fmtYmdHMSZ (astimezoneUTC 0 (dtFromEpoch f.mtimeEpochSec f.mtimeUsec))),
          some ⟨"weak", o.md5Hex (f.name ++ "|" ++ toString (f.content.length : ℤ) ++ "|" ++
            fmtYmdHMSZ (astimezoneUTC 0 (dtFromEpoch f.mtimeEpochSec f.mtimeUsec)))⟩,
          some "weak"⟩) ∧
    (f.content = g.content →
      (thr = none ∨ ∃ m, thr = some m ∧ (f.content.length : ℤ) ≤ m) →
      (derive_local_asset_identity o f thr).asset_id =
        (derive_local_asset_identity o g thr).asset_id) ∧
    (f.name = g.name → f.content.length = g.content.length →
      f.mtimeEpochSec = g.mtimeEpochSec →
      ∀ m, thr = some m → ¬ ((f.content.length : ℤ) ≤ m) →
      (derive_local_asset_identity o f thr).asset_id =
        (derive_local_asset_identity o g thr).asset_id) := by
  refine ⟨?_, ?_, ?_, ?_⟩
  · intro h
    rcases h with h | ⟨m, rfl, hle⟩
    · subst h
      simp [derive_local_asset_identity, compute_sha256]
    · simp [derive_local_asset_identity, compute_sha256, hle]
  · intro m hm hgt
    subst hm
    simp only [derive_local_asset_identity, compute_sha256, hgt, if_false]
    simp [compute_weak_signature, dtFromEpoch, astimezoneUTC]
  · intro hc hstrong
    rcases hstrong with h | ⟨m, rfl, hle⟩
    · subst h
      simp [derive_local_asset_identity, compute_sha256, hc]
    · have hlg : g.content.length = f.content.length := by rw [hc]
      simp [derive_local_asset_identity, compute_sha256, hle, hc, hlg]
  · intro hn hl he m hm hgt
    subst hm
    have hgl : ¬ ((g.content.length : ℤ) ≤ m) := by rw [← hl]; exact hgt
    simp only [derive_local_asset_identity, hgt, hgl, if_false]
    simp [compute_weak_signature, dtFromEpoch, astimezoneUTC, PyDateTime.epochSec, fmtYmdHMSZ,
      hn, hl, he]

/-- Witness for C8: a file within the threshold takes the strong branch; two files of equal
name, size and modified-second (differing in content and sub-second mtime) share a weak id. -/
theorem c8_witness :
    derive_local_asset_identity hashO fileA (some 5) =
      ⟨"sha256:" ++ hashO.sha256Hex fileA.content,
        some ⟨"sha256", hashO.sha256Hex fileA.content⟩, some "strong"⟩ ∧
    (derive_local_asset_identity hashO fileA (some 2)).asset_id =
      (derive_local_asset_identity hashO fileB (some 2)).asset_id :=
  ⟨(c8_derive_local_asset_identity hashO fileA fileA (some 5)).1 (Or.inr ⟨5, rfl, by decide⟩),
   (c8_derive_local_asset_identity hashO fileA fileB (some 2)).2.2.2 rfl rfl rfl 2 rfl
     (by decide)⟩

-- ### Claim C7

unseal Rat.add Rat.mul Rat.inv Rat.sub Rat.ofScientific in
/-- Counterexample for C7: the seeded poster timestamp is not `d/2` — the manifest rounds
every timestamp to 3 decimals, so duration `0.0001` seeds a poster at `0.0`, not `0.00005`,
although `0 < d`. -/
theorem c7_counterexample :
    (initial_thumbnail_manifest (1 / 10000)).poster.timestamp_s = 0 ∧
    (0 : ℚ) < 1 / 10000 ∧ (1 / 10000 : ℚ) / 2 ≠ 0 := by
  refine ⟨?_, by norm_num, by norm_num⟩
  decide

unseal Rat.add Rat.mul Rat.inv Rat.sub Rat.ofScientific in
/-- Claim C7 (corrected: the seeded timestamps are rounded to 3 decimals): poster at
`round(d/2, 3)` (`0.0` when `d ≤ 0`) with empty path and zero dimensions; exactly two sample
slots at `round(0.2·d, 3)` and `round(0.8·d, 3)` in that order when `d ≥ 60`, none when
`d < 60`; in particular `d = 59.9` seeds no samples and `d = 60` seeds `12.0` and `48.0`. -/
theorem c7_thumbnail_seeding (d : ℚ) :
    ((initial_thumbnail_manifest d).poster =
      ⟨pyRoundTo 3 (if 0 < d then d / 2 else 0), "", 0, 0⟩) ∧
    (60 ≤ d → (initial_thumbnail_manifest d).samples =
      [⟨pyRoundTo 3 (d * (2 / 10)), "", 0, 0⟩, ⟨pyRoundTo 3 (d * (8 / 10)), "", 0, 0⟩]) ∧
    (d < 60 → (initial_thumbnail_manifest d).samples = []) ∧
    (initial_thumbnail_manifest (599 / 10)).samples = [] ∧
    (initial_thumbnail_manifest 60).samples.map Thumb.timestamp_s = [12, 48] := by
  refine ⟨?_, ?_, ?_, by decide, by decide⟩
  · have h : (if d ≠ 0 ∧ 0 < d then d / 2 else 0) = (if 0 < d then d / 2 else 0) := by
      by_cases h0 : 0 < d
      · rw [if_pos h0, if_pos ⟨ne_of_gt h0, h0⟩]
      · rw [if_neg h0, if_neg (fun hc => h0 hc.2)]
    simp [initial_thumbnail_manifest, h]
  · intro h
    simp [initial_thumbnail_manifest, h]
  · intro h
    simp [initial_thumbnail_manifest, not_le.mpr h]

/-- Witness for C7: the sample-slot cases at `d = 100` and `d = 59`. -/
theorem c7_witness :
    (initial_thumbnail_manifest 100).samples =
      [⟨pyRoundTo 3 (100 * (2 / 10)), "", 0, 0⟩, ⟨pyRoundTo 3 (100 * (8 / 10)), "", 0, 0⟩] ∧
    (initial_thumbnail_manifest 59).samples = [] :=
  ⟨(c7_thumbnail_seeding 100).2.1 (by norm_num), (c7_thumbnail_seeding 59).2.2.1 (by norm_num)⟩

/-- Inversion of a successful `parse_ffprobe_json`: the four fallible steps succeeded and the
result is the assembled, schema-valid document. -/
theorem parse_ok_elim {env : IngestEnv} {raw : List (String × JVal)} {ctx : SourceContext}
    {sc : Sidecar} (h : parse_ffprobe_json env raw ctx = .ok sc) :
    ∃ fi ft sp ct,
      coerce_format raw = .ok fi ∧
      normalise_tags (dgetOr fi "tags" .null) = .ok ft ∧
      parse_streams (coerce_streams raw) = .ok sp ∧
      determine_created_time env.localOffSec ctx ft (sp.2.1 ++ sp.2.2) env.now = .ok ct ∧
      sidecarValid (assemble_sidecar env.localOffSec env.ffprobe_version env.ffmpeg_version
        env.now ctx fi ft sp ct) = true ∧
      sc = assemble_sidecar env.localOffSec env.ffprobe_version env.ffmpeg_version env.now
        ctx fi ft sp ct := by
  unfold parse_ffprobe_json at h
  simp only [bind, Except.bind] at h
  cases h1 : coerce_format raw with
  | error e => simp [h1] at h
  | ok fi =>
    simp only [h1] at h
    cases h2 : normalise_tags (dgetOr fi "tags" .null) with
    | error e => simp [h2] at h
    | ok ft =>
      simp only [h2] at h
      cases h3 : parse_streams (coerce_streams raw) with
      | error e => simp [h3] at h
      | ok sp =>
        simp only [h3] at h
        cases h4 : determine_created_time env.localOffSec ctx ft (sp.2.1 ++ sp.2.2) env.now with
        | error e => simp [h4] at h
        | ok ct =>
          simp only [h4] at h
          by_cases h5 : sidecarValid (assemble_sidecar env.localOffSec env.ffprobe_version
              env.ffmpeg_version env.now ctx fi ft sp ct) = true
          · refine ⟨fi, ft, sp, ct, rfl, h2, rfl, h4, h5, ?_⟩
            rw [if_pos h5] at h
            exact (Except.ok.inj h).symm
          · rw [if_neg h5] at h
            exact absurd h (by simp)

/-- The assembled sidecar's video summary is the one summarised from the video streams. -/
theorem assemble_video (l : ℤ) (fv mv : String) (n : PyDateTime) (ctx : SourceContext)
    (fi : List (String × JVal)) (ft : List (String × String))
    (sp : List StreamEntry × List TaggedStream × List TaggedStream) (ct : PyDateTime) :
    (assemble_sidecar l fv mv n ctx fi ft sp ct).video = (summarise_video_stream sp.2.1).1 :=
  rfl

/-- The assembled sidecar's warnings list, written out. -/
theorem assemble_warnings (l : ℤ) (fv mv : String) (n : PyDateTime) (ctx : SourceContext)
    (fi : List (String × JVal)) (ft : List (String × String))
    (sp : List StreamEntry × List TaggedStream × List TaggedStream) (ct : PyDateTime) :
    (assemble_sidecar l fv mv n ctx fi ft sp ct).warnings =
      sorted_dedup
        (((match (parse_duration (dgetOr fi "duration" .null)).2 with
            | some w => [w]
            | none => []) ++
          (match (summarise_video_stream sp.2.1).2 with
            | some w => [w]
            | none => [])) ++
          (match (summarise_audio_stream sp.2.2).2 with
            | some w => [w]
            | none => [])) :=
  rfl

-- ### Claim C6

unseal Rat.add Rat.mul Rat.inv Rat.sub in
/-- Counterexample for C6: a bare (non-fractional) numeric string does not parse "directly"
— the parsed value is also rounded to 2 decimals, so `"0.125"` yields `0.12`, not the
directly parsed `0.125`. -/
theorem c6_counterexample :
    parse_rational (some "0.125") = some (3 / 25) ∧
    pyFloatOfString "0.125" = some (1 / 8) ∧ (3 / 25 : ℚ) ≠ 1 / 8 := by
  refine ⟨by decide, by decide, by norm_num⟩

unseal Rat.add Rat.mul Rat.inv Rat.sub in
/-- Claim C6 (corrected: a bare numeric string is also rounded to 2 decimals): frame rate
prefers the average-rate field over the real/base-rate field; `"0/0"`, `"N/A"` and empty
values are "no opinion"; a bare numeric string parses as `round(float(s), 2)`; a `"num/den"`
string parses to `round(num/den, 2)` with a zero denominator (the `math.isclose` zero test)
unparseable; `"30000/1001"` gives 29.97 and `"24/1"` gives 24.0; and when no field parses the
video summary has no frame rate and the sidecar's warnings contain `frame_rate_unavailable`. -/
theorem c6_frame_rate_parsing (p : StreamEntry) :
    (∀ r, parse_rational p.avg_frame_rate = some r → frame_rate_from_stream p = some r) ∧
    (parse_rational p.avg_frame_rate = none →
      frame_rate_from_stream p = parse_rational p.r_frame_rate) ∧
    parse_rational none = none ∧ parse_rational (some "") = none ∧
    parse_rational (some "0/0") = none ∧ parse_rational (some "N/A") = none ∧
    (∀ s q, ¬ s.toList.contains '/' → pyFloatOfString s = some q →
      parse_rational (some s) = some (pyRoundTo 2 q)) ∧
    (∀ s num den, s.toList.contains '/' →
      pyFloatOfString (splitOnFirst s '/').1 = some num →
      pyFloatOfString (splitOnFirst s '/').2 = some den →
      (den = 0 → parse_rational (some s) = none) ∧
      (den ≠ 0 → parse_rational (some s) = some (pyRoundTo 2 (num / den)))) ∧
    parse_rational (some "30000/1001") = some (2997 / 100) ∧
    parse_rational (some "24/1") = some 24 ∧
    (∀ streams v w, summarise_video_stream streams = (some v, w) →
      (v.frame_rate_fps = none ↔ w = some "frame_rate_unavailable")) ∧
    (∀ env raw ctx sc v, parse_ffprobe_json env raw ctx = .ok sc → sc.video = some v →
      v.frame_rate_fps = none → "frame_rate_unavailable" ∈ sc.warnings) := by
  refine ⟨?_, ?_, by decide, by decide, by decide, by decide, ?_, ?_, by decide, by decide,
    ?_, ?_⟩
  · intro r hr
    simp [frame_rate_from_stream, hr]
  · intro h
    simp [frame_rate_from_stream, h]
  · intro s q hslash hq
    have hnm : '/' ∉ s.data := by simpa using hslash
    have hs1 : s ≠ "" := by
      rintro rfl
      have h0 : pyFloatOfString "" = none := by decide
      rw [h0] at hq
      cases hq
    have hs2 : s ≠ "0/0" := by
      rintro rfl
      exact hslash (by decide)
    have hs3 : s ≠ "N/A" := by
      rintro rfl
      have h0 : pyFloatOfString "N/A" = none := by decide
      rw [h0] at hq
      cases hq
    simp [parse_rational, hs1, hs2, hs3, hnm, hq]
  · intro s num den hcontains hnum hden
    have hm : '/' ∈ s.data := by simpa using hcontains
    have hs1 : s ≠ "" := by
      rintro rfl
      exact absurd hcontains (by decide)
    have hs3 : s ≠ "N/A" := by
      rintro rfl
      have h0 : pyFloatOfString (splitOnFirst "N/A" '/').1 = none := by decide
      rw [h0] at hnum
      cases hnum
    constructor
    · intro hden0
      by_cases hz : s = "0/0"
      · subst hz
        decide
      · simp [parse_rational, hs1, hs3, hz, hm, hnum, hden, hden0]
    · intro hdenne
      have hz : s ≠ "0/0" := by
        rintro rfl
        have h0 : pyFloatOfString (splitOnFirst "0/0" '/').2 = some 0 := by decide
        rw [h0] at hden
        exact hdenne (Option.some.inj hden).symm
      simp [parse_rational, hs1, hs3, hz, hm, hnum, hden, hdenne]
  · intro streams v w hsum
    cases streams with
    | nil => simp [summarise_video_stream] at hsum
    | cons hd tl =>
      unfold summarise_video_stream at hsum
      rw [Prod.mk.injEq] at hsum
      obtain ⟨hv, hw⟩ := hsum
      have hrec := Option.some.inj hv
      subst hrec
      rw [← hw]
      cases hfr : frame_rate_from_stream (select_video_stream hd tl).payload <;> simp [hfr]
  · intro env raw ctx sc v hparse hvideo hnone
    obtain ⟨fi, ft, sp, ct, _, _, _, _, _, hsc⟩ := parse_ok_elim hparse
    subst hsc
    rw [assemble_video] at hvideo
    rw [assemble_warnings, mem_sorted_dedup]
    cases hsl : sp.2.1 with
    | nil =>
      rw [hsl] at hvideo
      simp [summarise_video_stream] at hvideo
    | cons hd tl =>
      rw [hsl] at hvideo
      unfold summarise_video_stream at hvideo
      dsimp only at hvideo
      have hrec := Option.some.inj hvideo
      subst hrec
      dsimp only at hnone
      have hwarn : (summarise_video_stream (hd :: tl)).2 = some "frame_rate_unavailable" := by
        simp [summarise_video_stream, hnone]
      rw [hwarn]
      simp

unseal Rat.add Rat.mul Rat.inv Rat.sub in
/-- Witness for C6: the average-rate field wins (`30000/1001` → 29.97), a bare numeric
string and a fraction both evaluate through the rounding rule, and a probe with no
frame-rate fields produces a sidecar whose warnings contain `frame_rate_unavailable`. -/
theorem c6_witness :
    frame_rate_from_stream pC6 = some (2997 / 100) ∧
    parse_rational (some "29.5") = some (pyRoundTo 2 (59 / 2)) ∧
    parse_rational (some "30000/1001") = some (pyRoundTo 2 (30000 / 1001)) ∧
    "frame_rate_unavailable" ∈ scC6.warnings :=
  ⟨(c6_frame_rate_parsing pC6).1 (2997 / 100) (by decide),
   (c6_frame_rate_parsing pC6).2.2.2.2.2.2.1 "29.5" (59 / 2) (by decide) (by decide),
   ((c6_frame_rate_parsing pC6).2.2.2.2.2.2.2.1 "30000/1001" 30000 1001 (by decide)
      (by decide) (by decide)).2 (by norm_num),
   (c6_frame_rate_parsing pC6).2.2.2.2.2.2.2.2.2.2.2 envA rawC6 ctx0 scC6 vC6 rfl rfl rfl⟩

/-- A value matching the `(None, "N/A", "")` guard never converts with `int()`. -/
theorem isNullNAEmpty_pyIntConv {v : JVal} (h : isNullNAEmpty v = true) : pyIntConv v = none := by
  cases v <;> simp [isNullNAEmpty] at h
  case null => rfl
  case str s =>
    rcases h with rfl | rfl <;> decide

/-- The duration parser's only warning is `duration_unavailable`. -/
theorem parse_duration_warn (v : JVal) :
    (parse_duration v).2 = none ∨ (parse_duration v).2 = some "duration_unavailable" := by
  unfold parse_duration
  split_ifs
  · right; rfl
  · cases pyFloat v <;> simp

/-- The video summariser's only warning is `frame_rate_unavailable`. -/
theorem summarise_video_warn (streams : List TaggedStream) :
    (summarise_video_stream streams).2 = none ∨
      (summarise_video_stream streams).2 = some "frame_rate_unavailable" := by
  cases streams with
  | nil => left; rfl
  | cons hd tl =>
    unfold summarise_video_stream
    dsimp only
    split <;> simp

/-- The audio summariser's only warning is `no_audio_stream`. -/
theorem summarise_audio_warn (streams : List TaggedStream) :
    (summarise_audio_stream streams).2 = none ∨
      (summarise_audio_stream streams).2 = some "no_audio_stream" := by
  cases streams with
  | nil => right; rfl
  | cons hd tl => left; rfl

/-- Every warning a successful parse emits is one of the three known warning strings; in
particular no warning is ever attributable to an unparseable bitrate. -/
theorem parse_warnings_known {env : IngestEnv} {raw : List (String × JVal)}
    {ctx : SourceContext} {sc : Sidecar} (h : parse_ffprobe_json env raw ctx = .ok sc) :
    ∀ w ∈ sc.warnings,
      w = "duration_unavailable" ∨ w = "frame_rate_unavailable" ∨ w = "no_audio_stream" := by
  obtain ⟨fi, ft, sp, ct, _, _, _, _, _, hsc⟩ := parse_ok_elim h
  subst hsc
  intro w hw
  rw [assemble_warnings, mem_sorted_dedup] at hw
  rcases List.mem_append.mp hw with hw1 | hw3
  · rcases List.mem_append.mp hw1 with hwd | hwv
    · rcases parse_duration_warn (dgetOr fi "duration" .null) with hd | hd <;> rw [hd] at hwd
      · cases hwd
      · left
        simpa using hwd
    · rcases summarise_video_warn sp.2.1 with hv | hv <;> rw [hv] at hwv
      · cases hwv
      · right; left
        simpa using hwv
  · rcases summarise_audio_warn sp.2.2 with ha | ha <;> rw [ha] at hw3
    · cases hw3
    · right; right
      simpa using hw3

-- ### Claim C9

/-- Claim C9 (confirmed): a `bit_rate` value that `int()` accepts is recorded as that value
divided by 1000 and rounded to a nearest integer (ties to even); anything unparseable,
missing, empty or `"N/A"` yields `None`, and no warning is attributable to bitrate — every
warning a successful parse can emit is one of the three known non-bitrate strings. -/
theorem c9_bitrate_parsing (v : JVal) :
    (∀ n, pyIntConv v = some n →
      parse_bitrate_kbps v = some (roundHalfEven ((n : ℚ) / 1000)) ∧
      |((roundHalfEven ((n : ℚ) / 1000) : ℚ)) - (n : ℚ) / 1000| ≤ 1 / 2) ∧
    (pyIntConv v = none → parse_bitrate_kbps v = none) ∧
    (isNullNAEmpty v = true → parse_bitrate_kbps v = none) ∧
    (∀ env raw ctx sc, parse_ffprobe_json env raw ctx = .ok sc →
      ∀ w ∈ sc.warnings,
        w = "duration_unavailable" ∨ w = "frame_rate_unavailable" ∨ w = "no_audio_stream") := by
  refine ⟨?_, ?_, ?_, ?_⟩
  · intro n hn
    have hne : isNullNAEmpty v = false := by
      cases hny : isNullNAEmpty v
      · rfl
      · rw [isNullNAEmpty_pyIntConv hny] at hn
        cases hn
    constructor
    · simp [parse_bitrate_kbps, hne, hn]
    · exact roundHalfEven_nearest _
  · intro hn
    simp [parse_bitrate_kbps, hn]
  · intro hny
    simp [parse_bitrate_kbps, hny]
  · intro env raw ctx sc h
    exact parse_warnings_known h

/-- Witness for C9: `"1234567"` gives 1235 kbps, `"garbage"` gives `None`, and the empty
probe's sidecar warnings are among the three known strings. -/
theorem c9_witness :
    parse_bitrate_kbps (.str "1234567") = some (roundHalfEven ((1234567 : ℚ) / 1000)) ∧
    parse_bitrate_kbps (.str "garbage") = none ∧
    parse_bitrate_kbps (.str "N/A") = none :=
  ⟨((c9_bitrate_parsing (.str "1234567")).1 1234567 (by decide)).1,
   (c9_bitrate_parsing (.str "garbage")).2.1 (by decide),
   (c9_bitrate_parsing (.str "N/A")).2.2.1 (by decide)⟩

/-- The head of a filtered list is the first match. -/
theorem filter_head?_eq_find? {α : Type} (p : α → Bool) (l : List α) :
    (l.filter p).head? = l.find? p := by
  induction l with
  | nil => rfl
  | cons x xs ih =>
    by_cases h : p x
    · rw [List.filter_cons_of_pos h, List.find?_cons_of_pos _ h]
      rfl
    · rw [List.filter_cons_of_neg h, List.find?_cons_of_neg _ h, ih]

/-- Python `max(key=f)` keeps the first element of maximal score: the list splits around the
result, with every earlier element strictly smaller and every element no larger. -/
theorem max_by_score_split (f : TaggedStream → ℤ) :
    ∀ (tl : List TaggedStream) (best : TaggedStream),
      ∃ pre post, best :: tl = pre ++ max_by_score f best tl :: post ∧
        (∀ s ∈ pre, f s < f (max_by_score f best tl)) ∧
        (∀ s ∈ best :: tl, f s ≤ f (max_by_score f best tl)) := by
  intro tl
  induction tl with
  | nil =>
    intro best
    exact ⟨[], [], rfl, by simp, by simp [max_by_score]⟩
  | cons x xs ih =>
    intro best
    by_cases hlt : f best < f x
    · obtain ⟨pre, post, hsplit, hpre, hub⟩ := ih x
      have hm : max_by_score f best (x :: xs) = max_by_score f x xs := by
        simp [max_by_score, hlt]
      have hxm : f x ≤ f (max_by_score f x xs) := hub x (List.mem_cons_self _ _)
      refine ⟨best :: pre, post, ?_, ?_, ?_⟩
      · rw [hm, List.cons_append, ← hsplit]
      · intro s hs
        rw [hm]
        rcases List.mem_cons.mp hs with rfl | hs'
        · exact lt_of_lt_of_le hlt hxm
        · exact hpre s hs'
      · intro s hs
        rw [hm]
        rcases List.mem_cons.mp hs with rfl | hs'
        · exact le_of_lt (lt_of_lt_of_le hlt hxm)
        · exact hub s hs'
    · obtain ⟨pre, post, hsplit, hpre, hub⟩ := ih best
      have hm : max_by_score f best (x :: xs) = max_by_score f best xs := by
        simp [max_by_score, hlt]
      have hxb : f x ≤ f best := not_lt.mp hlt
      have hbm : f best ≤ f (max_by_score f best xs) := hub best (List.mem_cons_self _ _)
      cases pre with
      | nil =>
        have hbest : best = max_by_score f best xs := by
          have h0 := hsplit
          rw [List.nil_append] at h0
          exact (List.cons.inj h0).1
        refine ⟨[], x :: xs, ?_, by simp, ?_⟩
        · rw [hm, List.nil_append, ← hbest]
        · intro s hs
          rw [hm]
          rcases List.mem_cons.mp hs with rfl | hs'
          · exact hbm
          rcases List.mem_cons.mp hs' with rfl | hs''
          · exact le_trans hxb hbm
          · exact hub s (List.mem_cons_of_mem _ hs'')
      | cons p0 pre' =>
        have h0 := hsplit
        rw [List.cons_append] at h0
        have hb0 : best = p0 := (List.cons.inj h0).1
        have hxs : xs = pre' ++ max_by_score f best xs :: post := (List.cons.inj h0).2
        have hbestlt : f best < f (max_by_score f best xs) := by
          nth_rewrite 1 [hb0]
          exact hpre p0 (List.mem_cons_self _ _)
        refine ⟨best :: x :: pre', post, ?_, ?_, ?_⟩
        · rw [hm, List.cons_append, List.cons_append, ← hxs]
        · intro s hs
          rw [hm]
          rcases List.mem_cons.mp hs with rfl | hs'
          · exact hbestlt
          rcases List.mem_cons.mp hs' with rfl | hs''
          · exact lt_of_le_of_lt hxb hbestlt
          · exact hpre s (hb0 ▸ List.mem_cons_of_mem _ hs'')
        · intro s hs
          rw [hm]
          rcases List.mem_cons.mp hs with rfl | hs'
          · exact hbm
          rcases List.mem_cons.mp hs' with rfl | hs''
          · exact le_trans hxb hbm
          · exact hub s (List.mem_cons_of_mem _ hs'')

-- ### Claim C4

/-- Claim C4 (confirmed): among a nonempty list of video streams, if any stream has
disposition-default true the first such stream (original order) is selected; otherwise the
selected stream maximises `width × height` with ties resolved to the earliest stream. -/
theorem c4_video_stream_selection (hd : TaggedStream) (tl : List TaggedStream) :
    ((hd :: tl).any is_default_stream →
      (hd :: tl).find? is_default_stream = some (select_video_stream hd tl)) ∧
    ((∀ s ∈ hd :: tl, ¬ is_default_stream s) →
      ∃ pre post, hd :: tl = pre ++ select_video_stream hd tl :: post ∧
        (∀ s ∈ pre, score_video s < score_video (select_video_stream hd tl)) ∧
        (∀ s ∈ hd :: tl, score_video s ≤ score_video (select_video_stream hd tl))) := by
  constructor
  · intro hany
    unfold select_video_stream
    cases hf : (hd :: tl).filter is_default_stream with
    | nil =>
      rw [List.filter_eq_nil_iff] at hf
      rcases List.any_eq_true.mp hany with ⟨s, hs, hp⟩
      exact absurd hp (hf s hs)
    | cons d ds =>
      have := filter_head?_eq_find? is_default_stream (hd :: tl)
      rw [hf] at this
      exact this.symm
  · intro hnone
    unfold select_video_stream
    have hf : (hd :: tl).filter is_default_stream = [] :=
      List.filter_eq_nil_iff.mpr (fun a ha => by simpa using hnone a ha)
    rw [hf]
    exact max_by_score_split score_video tl hd

/-- Witness for C4: a 640×360 default-flagged stream beside a non-default 1920×1080 stream
selects the 640×360 one; with no default flags the 1920×1080 stream is selected and its
score bounds both. -/
theorem c4_witness :
    (vsSmallDefault :: [vsBigNonDefault]).find? is_default_stream =
      some (select_video_stream vsSmallDefault [vsBigNonDefault]) ∧
    select_video_stream vsSmallDefault [vsBigNonDefault] = vsSmallDefault ∧
    select_video_stream vsSmallPlain [vsBigPlain] = vsBigPlain ∧
    score_video vsSmallPlain ≤ score_video (select_video_stream vsSmallPlain [vsBigPlain]) :=
  ⟨(c4_video_stream_selection vsSmallDefault [vsBigNonDefault]).1 (by decide),
   rfl, rfl,
   ((c4_video_stream_selection vsSmallPlain [vsBigPlain]).2 (by decide)).choose_spec.choose_spec.2.2
     vsSmallPlain (List.mem_cons_self _ _)⟩

set_option maxHeartbeats 1000000 in
/-- `sorted(candidates)[0]` is a candidate of minimal instant. -/
theorem earliestAux_min (c : PyDateTime) (cs : List PyDateTime) :
    earliestAux c cs ∈ c :: cs ∧ ∀ x ∈ c :: cs, (earliestAux c cs).instant ≤ x.instant := by
  induction cs generalizing c with
  | nil => exact ⟨List.mem_cons_self _ _, by simp [earliestAux]⟩
  | cons x xs ih =>
    have hstep : earliestAux c (x :: xs) =
        earliestAux (if x.instant < c.instant then x else c) xs := by
      simp only [earliestAux]
    obtain ⟨ihm, ihb⟩ := ih (if x.instant < c.instant then x else c)
    constructor
    · rw [hstep]
      rcases List.mem_cons.mp ihm with he | hxs
    -- the accumulated best is either x or c; either way the result stays in the list
      · rw [he]
        split
        · exact List.mem_cons_of_mem _ (List.mem_cons_self _ _)
        · exact List.mem_cons_self _ _
      · exact List.mem_cons_of_mem _ (List.mem_cons_of_mem _ hxs)
    · intro y hy
      rw [hstep]
      have hacc : (earliestAux (if x.instant < c.instant then x else c) xs).instant ≤
          (if x.instant < c.instant then x else c).instant :=
        ihb _ (List.mem_cons_self _ _)
      rcases List.mem_cons.mp hy with rfl | hy'
      · refine le_trans hacc ?_
        split <;> rename_i h
        · exact le_of_lt h
        · exact le_refl _
      rcases List.mem_cons.mp hy' with rfl | hy''
      · refine le_trans hacc ?_
        split <;> rename_i h
        · exact le_refl _
        · exact not_lt.mp h
      · exact ihb y (List.mem_cons_of_mem _ hy'')

/-- The assembled sidecar's recorded creation time is the rendered resolved time. -/
theorem assemble_created (l : ℤ) (fv mv : String) (n : PyDateTime) (ctx : SourceContext)
    (fi : List (String × JVal)) (ft : List (String × String))
    (sp : List StreamEntry × List TaggedStream × List TaggedStream) (ct : PyDateTime) :
    (assemble_sidecar l fv mv n ctx fi ft sp ct).source.created_time = format_datetime l ct :=
  rfl

-- ### Claim C3

unseal Rat.add Rat.mul Rat.inv Rat.sub in
/-- Counterexample for C3: the claim's scan covers "each stream's tags", but the code scans
only the video and audio streams.  For a probe whose single stream is a subtitle stream
with `creation_time` 2000-01-01T00:00:00Z and a SourceContext with no explicit created time
and modified time 2024-02-02T00:00:00Z, the claim's chain resolves to 2000-01-01 (the tag
parses, and the stream's normalised tags are scanned per the claim), while the code records
the modified-time fallback 2024-02-02. -/
theorem c3_counterexample :
    parse_ffprobe_json envA rawC3 ctxC3 = .ok scC3 ∧
    ctxC3.created_time = none ∧
    normalise_tags (dgetOr [("index", JVal.int 0), ("codec_type", JVal.str "subtitle"),
        ("tags", JVal.obj [("creation_time", JVal.str "2000-01-01T00:00:00Z")])]
      "tags" .null) = .ok [("creation_time", "2000-01-01T00:00:00Z")] ∧
    scan_tag_map [("creation_time", "2000-01-01T00:00:00Z")] = [dtFromEpoch 946684800 0] ∧
    format_datetime envA.localOffSec (dtFromEpoch 946684800 0) = "2000-01-01T00:00:00Z" ∧
    scC3.source.created_time = "2024-02-02T00:00:00Z" ∧
    ("2024-02-02T00:00:00Z" : String) ≠ "2000-01-01T00:00:00Z" := by
  refine ⟨rfl, rfl, rfl, by decide, by decide, by decide, by decide⟩

/-- Claim C3 (corrected: only video and audio streams' tags are scanned, not every
stream's): the recorded creation time follows the strict chain — an explicit
`SourceContext.created_time` wins unconditionally; otherwise the earliest successfully
parsed timestamp among the creation-date tag keys over the format tags and each **video or
audio** stream's tags; otherwise `modified_time`; otherwise the normalization instant — and
the sidecar renders it in UTC at one-second precision. -/
theorem c3_created_time_resolution (localOff : ℤ) (ctx : SourceContext)
    (ft : List (String × String)) (streams : List TaggedStream) (now : PyDateTime) :
    (∀ t, ctx.created_time = some t →
      determine_created_time localOff ctx ft streams now = .ok (astimezoneUTC localOff t)) ∧
    (ctx.created_time = none →
      ∀ maps, streams.mapM (fun s => normalise_tags (dgetOr s.raw "tags" .null)) = .ok maps →
        (∀ c cs, scan_tag_map ft ++ (maps.map scan_tag_map).flatten = c :: cs →
          ∃ r, determine_created_time localOff ctx ft streams now = .ok r ∧
            r ∈ c :: cs ∧ ∀ x ∈ c :: cs, r.instant ≤ x.instant) ∧
        (scan_tag_map ft ++ (maps.map scan_tag_map).flatten = [] →
          (∀ m, ctx.modified_time = some m →
            determine_created_time localOff ctx ft streams now =
              .ok (astimezoneUTC localOff m)) ∧
          (ctx.modified_time = none →
            determine_created_time localOff ctx ft streams now = .ok now))) ∧
    (∀ env raw sc, parse_ffprobe_json env raw ctx = .ok sc →
      ∃ fi ftags sp ct,
        coerce_format raw = .ok fi ∧
        normalise_tags (dgetOr fi "tags" .null) = .ok ftags ∧
        parse_streams (coerce_streams raw) = .ok sp ∧
        determine_created_time env.localOffSec ctx ftags (sp.2.1 ++ sp.2.2) env.now = .ok ct ∧
        sc.source.created_time = format_datetime env.localOffSec ct) := by
  refine ⟨?_, ?_, ?_⟩
  · intro t ht
    unfold determine_created_time
    simp only [ht]
  · intro hnone maps hmaps
    constructor
    · intro c cs hcands
      have hdet : determine_created_time localOff ctx ft streams now = .ok (earliestAux c cs) := by
        unfold determine_created_time
        simp only [hnone, bind, Except.bind, hmaps, hcands]
      exact ⟨earliestAux c cs, hdet, (earliestAux_min c cs).1, (earliestAux_min c cs).2⟩
    · intro hcands
      constructor
      · intro m hm
        unfold determine_created_time
        simp only [hnone, bind, Except.bind, hmaps, hcands, hm]
      · intro hm
        unfold determine_created_time
        simp only [hnone, bind, Except.bind, hmaps, hcands, hm]
  · intro env raw sc hparse
    obtain ⟨fi, ftags, sp, ct, h1, h2, h3, h4, _, hsc⟩ := parse_ok_elim hparse
    subst hsc
    exact ⟨fi, ftags, sp, ct, h1, h2, h3, h4, assemble_created _ _ _ _ _ _ _ _ _⟩

/-- Witness for C3: each step of the chain at concrete inputs — an explicit created time
wins; a single parsed `creation_time` tag is taken; the modified-time fallback; and the
normalization-instant fallback. -/
theorem c3_witness :
    determine_created_time 0 { ctx0 with created_time := some (dtFromEpoch 1500000000 0) }
        [] [] (dtFromEpoch 0 0) = .ok (astimezoneUTC 0 (dtFromEpoch 1500000000 0)) ∧
    determine_created_time 0 ctx0 [("creation_time", "2000-01-01T00:00:00Z")] []
        (dtFromEpoch 0 0) = .ok (dtFromEpoch 946684800 0) ∧
    determine_created_time 0 ctxC3 [] [] (dtFromEpoch 0 0) =
      .ok (astimezoneUTC 0 (dtFromEpoch 1706832000 0)) ∧
    determine_created_time 0 ctx0 [] [] (dtFromEpoch 77 0) = .ok (dtFromEpoch 77 0) := by
  refine ⟨?_, ?_, ?_, ?_⟩
  · exact (c3_created_time_resolution 0 _ [] [] _).1 _ rfl
  · obtain ⟨r, hdet, hmem, _⟩ :=
      ((c3_created_time_resolution 0 ctx0 [("creation_time", "2000-01-01T00:00:00Z")] []
        (dtFromEpoch 0 0)).2.1 rfl [] rfl).1 (dtFromEpoch 946684800 0) [] (by decide)
    have hr : r = dtFromEpoch 946684800 0 := by simpa using hmem
    rw [hr] at hdet
    exact hdet
  · exact (((c3_created_time_resolution 0 ctxC3 [] [] (dtFromEpoch 0 0)).2.1 rfl []
      rfl).2 rfl).1 _ rfl
  · exact (((c3_created_time_resolution 0 ctx0 [] [] (dtFromEpoch 77 0)).2.1 rfl []
      rfl).2 rfl).2 rfl

-- ### Claim C1

unseal Rat.add Rat.mul Rat.inv Rat.sub in
/-- Counterexample for C1: two calls on identical (probe JSON, SourceContext) made at
different wall-clock instants both succeed yet produce different documents — the stamped
`provenance.ingested_at` differs (and, with no other creation-time source, so does
`source.created_time`). -/
theorem c1_counterexample :
    (parse_ffprobe_json envA [] ctx0).isOk = true ∧
    (parse_ffprobe_json envB [] ctx0).isOk = true ∧
    envA.localOffSec = envB.localOffSec ∧
    envA.ffprobe_version = envB.ffprobe_version ∧
    envA.ffmpeg_version = envB.ffmpeg_version ∧
    parsedIngestedAt (parse_ffprobe_json envA [] ctx0) ≠
      parsedIngestedAt (parse_ffprobe_json envB [] ctx0) := by
  refine ⟨by decide, by decide, rfl, rfl, rfl, by decide⟩

set_option maxHeartbeats 2000000 in
/-- The resolved creation time depends on the clock only through the final fallback: for
two instants, `_determine_created_time` either returns the same result or returns the two
instants themselves. -/
theorem determine_now_cases (localOff : ℤ) (ctx : SourceContext) (ft : List (String × String))
    (streams : List TaggedStream) (n1 n2 : PyDateTime) :
    determine_created_time localOff ctx ft streams n1 =
      determine_created_time localOff ctx ft streams n2 ∨
    (determine_created_time localOff ctx ft streams n1 = .ok n1 ∧
      determine_created_time localOff ctx ft streams n2 = .ok n2) := by
  unfold determine_created_time
  cases hct : ctx.created_time with
  | some t => left; rfl
  | none =>
    cases hmaps : streams.mapM (fun s => normalise_tags (dgetOr s.raw "tags" .null)) with
    | error e => left; simp [bind, Except.bind, hmaps]
    | ok maps =>
      cases hcands : scan_tag_map ft ++ (maps.map scan_tag_map).flatten with
      | cons c cs => left; simp [bind, Except.bind, hmaps, hcands]
      | nil =>
        cases hmod : ctx.modified_time with
        | some m => left; simp [bind, Except.bind, hmaps, hcands, hmod]
        | none => right; constructor <;> simp [bind, Except.bind, hmaps, hcands, hmod]

set_option maxHeartbeats 2000000 in
/-- After blanking the two clock-stamped fields, the assembled document does not depend on
the normalization instant or the resolved creation time. -/
theorem scrub_assemble_clock (l : ℤ) (fv mv : String) (n1 n2 : PyDateTime)
    (ctx : SourceContext) (fi : List (String × JVal)) (ft : List (String × String))
    (sp : List StreamEntry × List TaggedStream × List TaggedStream) (ct1 ct2 : PyDateTime) :
    scrub_clock_fields (assemble_sidecar l fv mv n1 ctx fi ft sp ct1) =
      scrub_clock_fields (assemble_sidecar l fv mv n2 ctx fi ft sp ct2) := by
  simp only [assemble_sidecar, scrub_clock_fields]

set_option maxHeartbeats 2000000 in
/-- The schema self-check does not read the two clock-stamped string fields. -/
theorem sidecarValid_assemble_clock (l : ℤ) (fv mv : String) (n1 n2 : PyDateTime)
    (ctx : SourceContext) (fi : List (String × JVal)) (ft : List (String × String))
    (sp : List StreamEntry × List TaggedStream × List TaggedStream) (ct1 ct2 : PyDateTime) :
    sidecarValid (assemble_sidecar l fv mv n1 ctx fi ft sp ct1) =
      sidecarValid (assemble_sidecar l fv mv n2 ctx fi ft sp ct2) := by
  simp only [sidecarValid, assemble_sidecar]

set_option maxHeartbeats 2000000 in
/-- Claim C1 (corrected: the document additionally depends on the ambient clock through
`provenance.ingested_at` and the creation-time fallback): with the ambient environment
(local timezone, tool-version strings) fixed, two parses of identical (probe JSON,
SourceContext) agree on the entire document outside those two clock-stamped fields;
byte-identical output additionally requires the same normalization instant. -/
theorem c1_parse_determinism (env1 env2 : IngestEnv) (raw : List (String × JVal))
    (ctx : SourceContext)
    (hl : env1.localOffSec = env2.localOffSec)
    (hf : env1.ffprobe_version = env2.ffprobe_version)
    (hm : env1.ffmpeg_version = env2.ffmpeg_version) :
    (parse_ffprobe_json env1 raw ctx).map scrub_clock_fields =
      (parse_ffprobe_json env2 raw ctx).map scrub_clock_fields := by
  unfold parse_ffprobe_json
  simp only [bind, Except.bind]
  rw [hl, hf, hm]
  cases h1 : coerce_format raw with
  | error e => rfl
  | ok fi =>
    dsimp only
    cases h2 : normalise_tags (dgetOr fi "tags" .null) with
    | error e => rfl
    | ok ft =>
      dsimp only
      cases h3 : parse_streams (coerce_streams raw) with
      | error e => rfl
      | ok sp =>
        dsimp only
        rcases determine_now_cases env2.localOffSec ctx ft (sp.2.1 ++ sp.2.2)
            env1.now env2.now with heq | ⟨ha, hb⟩
        · rw [heq]
          cases h4 : determine_created_time env2.localOffSec ctx ft (sp.2.1 ++ sp.2.2)
              env2.now with
          | error e => rfl
          | ok ct =>
            dsimp only
            rw [sidecarValid_assemble_clock env2.localOffSec env2.ffprobe_version
              env2.ffmpeg_version env1.now env2.now ctx fi ft sp ct ct]
            by_cases hv : sidecarValid (assemble_sidecar env2.localOffSec env2.ffprobe_version
                env2.ffmpeg_version env2.now ctx fi ft sp ct) = true
            · rw [if_pos hv, if_pos hv]
              simp only [Except.map]
              rw [scrub_assemble_clock env2.localOffSec env2.ffprobe_version
                env2.ffmpeg_version env1.now env2.now ctx fi ft sp ct ct]
            · rw [if_neg hv, if_neg hv]
        · rw [ha, hb]
          dsimp only
          rw [sidecarValid_assemble_clock env2.localOffSec env2.ffprobe_version
            env2.ffmpeg_version env1.now env2.now ctx fi ft sp env1.now env2.now]
          by_cases hv : sidecarValid (assemble_sidecar env2.localOffSec env2.ffprobe_version
              env2.ffmpeg_version env2.now ctx fi ft sp env2.now) = true
          · rw [if_pos hv, if_pos hv]
            simp only [Except.map]
            rw [scrub_assemble_clock env2.localOffSec env2.ffprobe_version
              env2.ffmpeg_version env1.now env2.now ctx fi ft sp env1.now env2.now]
          · rw [if_neg hv, if_neg hv]

set_option maxHeartbeats 2000000 in
/-- Witness for C1: with environments sharing timezone and tool versions but one second
apart, the scrubbed parses of the empty probe coincide. -/
theorem c1_witness :
    (parse_ffprobe_json envA [] ctx0).map scrub_clock_fields =
      (parse_ffprobe_json envB [] ctx0).map scrub_clock_fields :=
  c1_parse_determinism envA envB [] ctx0 rfl rfl rfl

-- ### Claim C5

/-- `String.append` cancels on the left. -/
theorem string_append_cancel_left {a b c : String} (h : a ++ b = a ++ c) : b = c := by
  cases a with
  | mk la =>
    cases b with
    | mk lb =>
      cases c with
      | mk lc =>
        apply congrArg String.mk
        have h2 : la ++ lb = la ++ lc := congrArg String.data h
        exact List.append_cancel_left h2

/-- `sorted(set(l))` has no duplicates. -/
theorem nodup_sorted_dedup (l : List String) : (sorted_dedup l).Nodup :=
  ((List.perm_insertionSort _ _).nodup_iff).mpr (List.nodup_dedup l)

/-- One extraction attempt keeps the filesystem duplicate-free. -/
theorem extract_nodup (o : ExtractOracle) (vp : String) (fs : List String) (t : ℚ)
    (p : String) (h : fs.Nodup) : (extract_and_measure o vp fs t p).2.Nodup := by
  unfold extract_and_measure
  cases o vp t p with
  | success w hh =>
    dsimp only
    split_ifs with hp
    · exact h
    · exact h.cons hp
  | subprocessFail b => exact h.erase p
  | decodeFail => exact h.erase p

/-- One extraction attempt never introduces a path other than its own output path. -/
theorem extract_absent (o : ExtractOracle) (vp : String) (fs : List String) (t : ℚ)
    (p q : String) (hne : q ≠ p) (h : q ∉ fs) : q ∉ (extract_and_measure o vp fs t p).2 := by
  unfold extract_and_measure
  cases o vp t p with
  | success w hh =>
    dsimp only
    split_ifs with hp
    · exact h
    · intro hmem
      rcases List.mem_cons.1 hmem with rfl | hmem2
      · exact hne rfl
      · exact h hmem2
  | subprocessFail b => exact fun hmem => h (List.mem_of_mem_erase hmem)
  | decodeFail => exact fun hmem => h (List.mem_of_mem_erase hmem)

/-- A failed extraction attempt leaves its output path absent from the filesystem. -/
theorem extract_fail_absent (o : ExtractOracle) (vp : String) (fs : List String) (t : ℚ)
    (p : String) (hnd : fs.Nodup) (hfail : outcome_success (o vp t p) = false) :
    p ∉ (extract_and_measure o vp fs t p).2 := by
  unfold extract_and_measure
  cases ho : o vp t p with
  | success w hh => rw [ho] at hfail; simp [outcome_success] at hfail
  | subprocessFail b =>
    dsimp only
    intro hmem
    exact (((hnd.mem_erase_iff).1 hmem).1) rfl
  | decodeFail =>
    dsimp only
    intro hmem
    exact (((hnd.mem_erase_iff).1 hmem).1) rfl

/-- The sample loop returns exactly the successfully rendered slots in original order, and
one failure warning per failed slot. -/
theorem render_samples_spec (o : ExtractOracle) (vp troot aid : String) :
    ∀ (samples : List Thumb) (fs : List String),
    (render_samples o vp troot aid fs samples).1 =
      samples.filterMap (fun t => sample_render aid t (sample_outcome o vp troot t)) ∧
    (render_samples o vp troot aid fs samples).2.2 =
      (samples.filter (fun t => !outcome_success (sample_outcome o vp troot t))).map
        (fun _ => "thumbnail_generation_failed") := by
  intro samples
  induction samples with
  | nil => intro fs; exact ⟨rfl, rfl⟩
  | cons s rest ih =>
    intro fs
    have hstep : (extract_and_measure o vp fs s.timestamp_s
        (troot ++ "/" ++ sample_filename s)).1 =
        (sample_render aid s (sample_outcome o vp troot s)).map
          (fun t => (t.width_px, t.height_px)) := by
      unfold extract_and_measure sample_outcome
      cases o vp s.timestamp_s (troot ++ "/" ++ sample_filename s) with
      | success w h => rfl
      | subprocessFail b => rfl
      | decodeFail => rfl
    cases ho : sample_outcome o vp troot s with
    | success w h =>
      constructor
      · simp only [render_samples]
        rw [hstep, ho]
        simp only [sample_render, Option.map_some]
        rw [(ih _).1]
        simp [ho, sample_render, rendered_sample]
      · simp only [render_samples]
        rw [hstep, ho]
        simp only [sample_render, Option.map_some]
        rw [(ih _).2]
        simp [ho, outcome_success]
    | subprocessFail b =>
      constructor
      · simp only [render_samples]
        rw [hstep, ho]
        simp only [sample_render, Option.map_none]
        rw [(ih _).1]
        simp [ho, sample_render]
      · simp only [render_samples]
        rw [hstep, ho]
        simp only [sample_render, Option.map_none]
        rw [(ih _).2]
        simp [ho, outcome_success]
    | decodeFail =>
      constructor
      · simp only [render_samples]
        rw [hstep, ho]
        simp only [sample_render, Option.map_none]
        rw [(ih _).1]
        simp [ho, sample_render]
      · simp only [render_samples]
        rw [hstep, ho]
        simp only [sample_render, Option.map_none]
        rw [(ih _).2]
        simp [ho, outcome_success]

/-- The sample loop keeps the filesystem duplicate-free. -/
theorem render_samples_nodup (o : ExtractOracle) (vp troot aid : String) :
    ∀ (samples : List Thumb) (fs : List String), fs.Nodup →
    (render_samples o vp troot aid fs samples).2.1.Nodup := by
  intro samples
  induction samples with
  | nil => intro fs h; exact h
  | cons s rest ih =>
    intro fs h
    have h2 := extract_nodup o vp fs s.timestamp_s (troot ++ "/" ++ sample_filename s) h
    simp only [render_samples]
    cases hs : (extract_and_measure o vp fs s.timestamp_s
        (troot ++ "/" ++ sample_filename s)).1 with
    | some wh => exact ih _ h2
    | none => exact ih _ h2

/-- A path that is not any slot's output path and is absent going in stays absent. -/
theorem render_samples_absent (o : ExtractOracle) (vp troot aid : String) :
    ∀ (samples : List Thumb) (fs : List String) (q : String), q ∉ fs →
    (∀ t ∈ samples, troot ++ "/" ++ sample_filename t ≠ q) →
    q ∉ (render_samples o vp troot aid fs samples).2.1 := by
  intro samples
  induction samples with
  | nil => intro fs q h _; exact h
  | cons s rest ih =>
    intro fs q h hne
    have h2 : q ∉ (extract_and_measure o vp fs s.timestamp_s
        (troot ++ "/" ++ sample_filename s)).2 := by
      refine extract_absent o vp fs s.timestamp_s _ q ?_ h
      intro he
      exact hne s (List.mem_cons_self _ _) (he ▸ rfl)
    simp only [render_samples]
    cases hs : (extract_and_measure o vp fs s.timestamp_s
        (troot ++ "/" ++ sample_filename s)).1 with
    | some wh => exact ih _ q h2 (fun t ht => hne t (List.mem_cons_of_mem _ ht))
    | none => exact ih _ q h2 (fun t ht => hne t (List.mem_cons_of_mem _ ht))

/-- A failed sample slot's output file is absent from the loop's final filesystem, provided
the slot filenames are pairwise distinct. -/
theorem render_samples_failed_absent (o : ExtractOracle) (vp troot aid : String) :
    ∀ (samples : List Thumb) (fs : List String), fs.Nodup →
    ∀ t ∈ samples, outcome_success (sample_outcome o vp troot t) = false →
    (samples.map sample_filename).Nodup →
    troot ++ "/" ++ sample_filename t ∉ (render_samples o vp troot aid fs samples).2.1 := by
  intro samples
  induction samples with
  | nil => intro fs _ t ht; exact absurd ht (List.not_mem_nil t)
  | cons s rest ih =>
    intro fs hnd t ht hfail hmap
    rw [List.map_cons, List.nodup_cons] at hmap
    have hstep2 := extract_nodup o vp fs s.timestamp_s (troot ++ "/" ++ sample_filename s) hnd
    rcases List.mem_cons.1 ht with rfl | ht2
    · have habs : troot ++ "/" ++ sample_filename t ∉
          (extract_and_measure o vp fs t.timestamp_s (troot ++ "/" ++ sample_filename t)).2 :=
        extract_fail_absent o vp fs t.timestamp_s _ hnd hfail
      simp only [render_samples]
      cases hs : (extract_and_measure o vp fs t.timestamp_s
          (troot ++ "/" ++ sample_filename t)).1 with
      | some wh =>
        refine render_samples_absent o vp troot aid rest _ _ habs ?_
        intro u hu he
        have : sample_filename u = sample_filename t := string_append_cancel_left he
        exact hmap.1 (this ▸ List.mem_map_of_mem sample_filename hu)
      | none =>
        refine render_samples_absent o vp troot aid rest _ _ habs ?_
        intro u hu he
        have : sample_filename u = sample_filename t := string_append_cancel_left he
        exact hmap.1 (this ▸ List.mem_map_of_mem sample_filename hu)
    · simp only [render_samples]
      cases hs : (extract_and_measure o vp fs s.timestamp_s
          (troot ++ "/" ++ sample_filename s)).1 with
      | some wh => exact ih _ hstep2 t ht2 hfail hmap.2
      | none => exact ih _ hstep2 t ht2 hfail hmap.2

/-- `String.append` is associative. -/
theorem string_append_assoc (a b c : String) : (a ++ b) ++ c = a ++ (b ++ c) := by
  cases a with
  | mk la =>
    cases b with
    | mk lb =>
      cases c with
      | mk lc => exact congrArg String.mk (List.append_assoc la lb lc)

/-- Claim C5 (confirmed): on a sidecar with a non-empty asset id, `render_thumbnails`
succeeds; a failed poster extraction keeps the poster slot with empty path and zero
dimensions while a successful one enriches it; the returned samples are exactly the
successfully rendered slots in original order; the warnings are deduplicated and contain
exactly the incoming warnings plus `thumbnail_generation_failed` iff some slot failed; and
every failed slot's output file is absent from the final filesystem. -/
theorem c5_thumbnail_failure_policy (oracle : ExtractOracle) (video_path out_dir : String)
    (sidecar : RenderSidecar) (fs : List String)
    (hid : ¬ sidecar.asset_id = "") (hfs : fs.Nodup) :
    ∃ sc fs1, render_thumbnails oracle video_path sidecar out_dir fs = .ok (sc, fs1) ∧
      ((outcome_success (oracle video_path sidecar.thumbnails.poster.timestamp_s
          (out_dir ++ "/thumbs/" ++ sidecar.asset_id ++ "/poster.jpg")) = false →
        sc.thumbnails.poster =
          { sidecar.thumbnails.poster with path := "", width_px := 0, height_px := 0 }) ∧
       (∀ w h, oracle video_path sidecar.thumbnails.poster.timestamp_s
            (out_dir ++ "/thumbs/" ++ sidecar.asset_id ++ "/poster.jpg") =
            .success w h →
        sc.thumbnails.poster =
          { sidecar.thumbnails.poster with
              path := "thumbs/" ++ sidecar.asset_id ++ "/poster.jpg"
              width_px := w
              height_px := h })) ∧
      sc.thumbnails.samples = sidecar.thumbnails.samples.filterMap (fun t =>
        sample_render sidecar.asset_id t
          (sample_outcome oracle video_path (out_dir ++ "/thumbs/" ++ sidecar.asset_id) t)) ∧
      sc.warnings.Nodup ∧
      (∀ w, w ∈ sc.warnings ↔ (w ∈ sidecar.warnings ∨
        (w = "thumbnail_generation_failed" ∧
          (outcome_success (oracle video_path sidecar.thumbnails.poster.timestamp_s
              (out_dir ++ "/thumbs/" ++ sidecar.asset_id ++ "/poster.jpg")) = false ∨
           ∃ t ∈ sidecar.thumbnails.samples,
             outcome_success (sample_outcome oracle video_path
               (out_dir ++ "/thumbs/" ++ sidecar.asset_id) t) = false)))) ∧
      ((outcome_success (oracle video_path sidecar.thumbnails.poster.timestamp_s
          (out_dir ++ "/thumbs/" ++ sidecar.asset_id ++ "/poster.jpg")) = false →
        (∀ t ∈ sidecar.thumbnails.samples, ¬ sample_filename t = "poster.jpg") →
        out_dir ++ "/thumbs/" ++ sidecar.asset_id ++ "/poster.jpg" ∉ fs1) ∧
       (∀ t ∈ sidecar.thumbnails.samples,
         outcome_success (sample_outcome oracle video_path
           (out_dir ++ "/thumbs/" ++ sidecar.asset_id) t) = false →
         (sidecar.thumbnails.samples.map sample_filename).Nodup →
         out_dir ++ "/thumbs/" ++ sidecar.asset_id ++ "/" ++ sample_filename t ∉ fs1)) := by
  unfold render_thumbnails
  rw [if_neg hid]
  dsimp only
  refine ⟨_, _, rfl, ⟨?_, ?_⟩, ?_, ?_, ?_, ?_, ?_⟩
  · intro hpf
    unfold extract_and_measure
    cases hpo : oracle video_path sidecar.thumbnails.poster.timestamp_s
        (out_dir ++ "/thumbs/" ++ sidecar.asset_id ++ "/poster.jpg") with
    | success w h => rw [hpo] at hpf; simp [outcome_success] at hpf
    | subprocessFail b => rfl
    | decodeFail => rfl
  · intro w h hpo
    unfold extract_and_measure
    rw [hpo]
  · exact (render_samples_spec oracle video_path _ sidecar.asset_id
      sidecar.thumbnails.samples _).1
  · exact nodup_sorted_dedup _
  · intro w
    rw [mem_sorted_dedup]
    rw [(render_samples_spec oracle video_path _ sidecar.asset_id
      sidecar.thumbnails.samples _).2]
    unfold extract_and_measure
    cases hpo : oracle video_path sidecar.thumbnails.poster.timestamp_s
        (out_dir ++ "/thumbs/" ++ sidecar.asset_id ++ "/poster.jpg") with
    | success pw ph =>
      simp only [outcome_success, List.mem_append, List.mem_map, List.mem_filter,
        List.append_nil, Bool.not_eq_true', List.not_mem_nil]
      constructor
      · rintro (hw | ⟨t, ⟨ht, hfail⟩, rfl⟩)
        · exact Or.inl hw
        · exact Or.inr ⟨rfl, Or.inr ⟨t, ht, hfail⟩⟩
      · rintro (hw | ⟨rfl, hca | ⟨t, ht, hfail⟩⟩)
        · exact Or.inl hw
        · exact absurd hca (by simp)
        · exact Or.inr ⟨t, ⟨ht, hfail⟩, rfl⟩
    | subprocessFail b =>
      simp only [outcome_success, List.mem_append, List.mem_map, List.mem_filter,
        List.mem_singleton, Bool.not_eq_true']
      constructor
      · rintro ((hw | rfl) | ⟨t, ⟨ht, hfail⟩, rfl⟩)
        · exact Or.inl hw
        · exact Or.inr ⟨rfl, Or.inl trivial⟩
        · exact Or.inr ⟨rfl, Or.inr ⟨t, ht, hfail⟩⟩
      · rintro (hw | ⟨rfl, hca | ⟨t, ht, hfail⟩⟩)
        · exact Or.inl (Or.inl hw)
        · exact Or.inl (Or.inr rfl)
        · exact Or.inr ⟨t, ⟨ht, hfail⟩, rfl⟩
    | decodeFail =>
      simp only [outcome_success, List.mem_append, List.mem_map, List.mem_filter,
        List.mem_singleton, Bool.not_eq_true']
      constructor
      · rintro ((hw | rfl) | ⟨t, ⟨ht, hfail⟩, rfl⟩)
        · exact Or.inl hw
        · exact Or.inr ⟨rfl, Or.inl trivial⟩
        · exact Or.inr ⟨rfl, Or.inr ⟨t, ht, hfail⟩⟩
      · rintro (hw | ⟨rfl, hca | ⟨t, ht, hfail⟩⟩)
        · exact Or.inl (Or.inl hw)
        · exact Or.inl (Or.inr rfl)
        · exact Or.inr ⟨t, ⟨ht, hfail⟩, rfl⟩
  · intro hpf hnames
    refine render_samples_absent oracle video_path _ sidecar.asset_id
      sidecar.thumbnails.samples _ _
      (extract_fail_absent oracle video_path fs sidecar.thumbnails.poster.timestamp_s _
        hfs hpf) ?_
    intro t ht he
    have hpos : ("/" : String) ++ "poster.jpg" = "/poster.jpg" := by decide
    rw [← hpos, ← string_append_assoc] at he
    exact hnames t ht (string_append_cancel_left he)
  · intro t ht hfail hmap
    exact render_samples_failed_absent oracle video_path _ sidecar.asset_id
      sidecar.thumbnails.samples _
      (extract_nodup oracle video_path fs sidecar.thumbnails.poster.timestamp_s _ hfs)
      t ht hfail hmap

/-- Witness for C5 at a 60-second asset whose first sample extraction fails. -/
theorem c5_witness :
    ¬ renderSC.asset_id = "" ∧ ([] : List String).Nodup ∧
    (∃ sc fs1, render_thumbnails oracleC5 "v.mp4" renderSC "out" [] = .ok (sc, fs1) ∧
      ((outcome_success (oracleC5 "v.mp4" renderSC.thumbnails.poster.timestamp_s
          ("out" ++ "/thumbs/" ++ renderSC.asset_id ++ "/poster.jpg")) = false →
        sc.thumbnails.poster =
          { renderSC.thumbnails.poster with path := "", width_px := 0, height_px := 0 }) ∧
       (∀ w h, oracleC5 "v.mp4" renderSC.thumbnails.poster.timestamp_s
            ("out" ++ "/thumbs/" ++ renderSC.asset_id ++ "/poster.jpg") =
            .success w h →
        sc.thumbnails.poster =
          { renderSC.thumbnails.poster with
              path := "thumbs/" ++ renderSC.asset_id ++ "/poster.jpg"
              width_px := w
              height_px := h })) ∧
      sc.thumbnails.samples = renderSC.thumbnails.samples.filterMap (fun t =>
        sample_render renderSC.asset_id t
          (sample_outcome oracleC5 "v.mp4" ("out" ++ "/thumbs/" ++ renderSC.asset_id) t)) ∧
      sc.warnings.Nodup ∧
      (∀ w, w ∈ sc.warnings ↔ (w ∈ renderSC.warnings ∨
        (w = "thumbnail_generation_failed" ∧
          (outcome_success (oracleC5 "v.mp4" renderSC.thumbnails.poster.timestamp_s
              ("out" ++ "/thumbs/" ++ renderSC.asset_id ++ "/poster.jpg")) = false ∨
           ∃ t ∈ renderSC.thumbnails.samples,
             outcome_success (sample_outcome oracleC5 "v.mp4"
               ("out" ++ "/thumbs/" ++ renderSC.asset_id) t) = false)))) ∧
      ((outcome_success (oracleC5 "v.mp4" renderSC.thumbnails.poster.timestamp_s
          ("out" ++ "/thumbs/" ++ renderSC.asset_id ++ "/poster.jpg")) = false →
        (∀ t ∈ renderSC.thumbnails.samples, ¬ sample_filename t = "poster.jpg") →
        "out" ++ "/thumbs/" ++ renderSC.asset_id ++ "/poster.jpg" ∉ fs1) ∧
       (∀ t ∈ renderSC.thumbnails.samples,
         outcome_success (sample_outcome oracleC5 "v.mp4"
           ("out" ++ "/thumbs/" ++ renderSC.asset_id) t) = false →
         (renderSC.thumbnails.samples.map sample_filename).Nodup →
         "out" ++ "/thumbs/" ++ renderSC.asset_id ++ "/" ++ sample_filename t ∉ fs1))) :=
  ⟨by decide, List.nodup_nil,
    c5_thumbnail_failure_policy oracleC5 "v.mp4" "out" renderSC [] (by decide) List.nodup_nil⟩

-- ### Claim C2

/-- A dict-or-falsy tags slot normalises without raising. -/
theorem normalise_tags_ok {v : JVal} (h : tags_shapedB v = true) :
    ∃ r, normalise_tags v = .ok r := by
  have h2 := h
  unfold tags_shapedB at h2
  rcases Bool.or_eq_true _ _ ▸ h2 with ho | hnt
  · cases v with
    | obj fs =>
      unfold normalise_tags
      by_cases ht : (JVal.obj fs).truthy = true
      · rw [if_neg (not_not_intro ht)]
        exact ⟨_, rfl⟩
      · rw [if_pos ht]
        exact ⟨[], rfl⟩
    | null => exact absurd ho (by simp [is_obj])
    | bool b => exact absurd ho (by simp [is_obj])
    | int n => exact absurd ho (by simp [is_obj])
    | float q => exact absurd ho (by simp [is_obj])
    | str s => exact absurd ho (by simp [is_obj])
    | arr xs => exact absurd ho (by simp [is_obj])
  · have hf : v.truthy = false := by simpa using hnt
    unfold normalise_tags
    rw [if_pos (by simp [hf])]
    exact ⟨[], rfl⟩

/-- Comparing two values that both read as numbers never raises. -/
theorem pyLt_num_ok {a b : JVal} (ha : (numVal a).isSome = true)
    (hb : (numVal b).isSome = true) : ∃ r, pyLt a b = .ok r := by
  cases a <;> cases b <;>
    first
      | exact ⟨_, rfl⟩
      | simp [numVal] at ha hb

/-- Inserting into a sorted prefix cannot raise when every needed comparison succeeds. -/
theorem insert_by_m_ok {α : Type} (P : α → Prop) (lt : α → α → Except PyErr Bool)
    (hlt : ∀ a b, P a → P b → ∃ r, lt a b = .ok r) (x : α) (hx : P x) :
    ∀ l : List α, (∀ y ∈ l, P y) → ∃ l2, insert_by_m lt x l = .ok l2 ∧ ∀ y ∈ l2, P y := by
  intro l
  induction l with
  | nil =>
    intro _
    refine ⟨[x], rfl, ?_⟩
    intro y hy
    rcases List.mem_singleton.1 hy with rfl
    exact hx
  | cons a as ih =>
    intro hall
    obtain ⟨r, hr⟩ := hlt x a hx (hall a (List.mem_cons_self _ _))
    obtain ⟨l2, h2, hP2⟩ := ih (fun y hy => hall y (List.mem_cons_of_mem _ hy))
    unfold insert_by_m
    simp only [bind, Except.bind]
    rw [hr]
    dsimp only
    cases r with
    | true =>
      rw [if_pos rfl]
      refine ⟨x :: a :: as, rfl, ?_⟩
      intro y hy
      rcases List.mem_cons.1 hy with rfl | hy2
      · exact hx
      · exact hall y hy2
    | false =>
      rw [if_neg (by simp)]
      rw [h2]
      dsimp only
      refine ⟨a :: l2, rfl, ?_⟩
      intro y hy
      rcases List.mem_cons.1 hy with rfl | hy2
      · exact hall y (List.mem_cons_self _ _)
      · exact hP2 y hy2

/-- The sort's fold cannot raise when every element supports the key comparison. -/
theorem sort_fold_ok {α : Type} (P : α → Prop) (lt : α → α → Except PyErr Bool)
    (hlt : ∀ a b, P a → P b → ∃ r, lt a b = .ok r) :
    ∀ (l acc : List α), (∀ y ∈ l, P y) → (∀ y ∈ acc, P y) →
    ∃ l2, List.foldlM (fun acc x => insert_by_m lt x acc) acc l = .ok l2 := by
  intro l
  induction l with
  | nil => intro acc _ _; exact ⟨acc, rfl⟩
  | cons a as ih =>
    intro acc hl hacc
    obtain ⟨l2, h2, hP2⟩ := insert_by_m_ok P lt hlt a (hl a (List.mem_cons_self _ _)) acc hacc
    have hdef : List.foldlM (fun acc x => insert_by_m lt x acc) acc (a :: as) =
        insert_by_m lt a acc >>= fun s =>
          List.foldlM (fun acc x => insert_by_m lt x acc) s as := rfl
    rw [hdef, h2]
    simp only [bind, Except.bind]
    exact ih l2 (fun y hy => hl y (List.mem_cons_of_mem _ hy)) hP2

/-- `list.sort(key=...)` cannot raise when every element supports the key comparison. -/
theorem sort_by_m_ok {α : Type} (P : α → Prop) (lt : α → α → Except PyErr Bool)
    (hlt : ∀ a b, P a → P b → ∃ r, lt a b = .ok r) (l : List α) (hl : ∀ y ∈ l, P y) :
    ∃ l2, sort_by_m lt l = .ok l2 :=
  sort_fold_ok P lt hlt l [] hl (fun y hy => absurd hy (List.not_mem_nil y))

/-- `mapM` succeeds, with every output satisfying the per-element postcondition, when every
input satisfies the precondition. -/
theorem mapM_loop_ok {α β : Type} (f : α → Except PyErr β) (P : α → Prop) (Q : β → Prop)
    (hf : ∀ x, P x → ∃ y, f x = .ok y ∧ Q y) :
    ∀ (l : List α) (acc : List β), (∀ x ∈ l, P x) → (∀ y ∈ acc, Q y) →
    ∃ l2, List.mapM.loop f l acc = .ok l2 ∧ ∀ y ∈ l2, Q y := by
  intro l
  induction l with
  | nil =>
    intro acc _ hacc
    exact ⟨acc.reverse, rfl, fun y hy => hacc y (List.mem_reverse.1 hy)⟩
  | cons a as ih =>
    intro acc hl hacc
    obtain ⟨y, hy, hQy⟩ := hf a (hl a (List.mem_cons_self _ _))
    have hdef : List.mapM.loop f (a :: as) acc =
        f a >>= fun b => List.mapM.loop f as (b :: acc) := rfl
    rw [hdef, hy]
    simp only [bind, Except.bind]
    refine ih _ (fun x hx => hl x (List.mem_cons_of_mem _ hx)) ?_
    intro z hz
    rcases List.mem_cons.1 hz with rfl | hz2
    · exact hQy
    · exact hacc z hz2

/-- `items.mapM f` version of `mapM_loop_ok`. -/
theorem mapM_ok {α β : Type} (f : α → Except PyErr β) (P : α → Prop) (Q : β → Prop)
    (hf : ∀ x, P x → ∃ y, f x = .ok y ∧ Q y) (l : List α) (hl : ∀ x ∈ l, P x) :
    ∃ l2, l.mapM f = .ok l2 ∧ ∀ y ∈ l2, Q y :=
  mapM_loop_ok f P Q hf l [] hl (fun y hy => absurd hy (List.not_mem_nil y))

/-- A shaped raw stream parses without raising, and its parse keeps a dict-or-falsy tags
slot and a numeric index. -/
theorem parse_one_stream_ok {x : JVal} (hx : stream_shapedB x = true) :
    ∃ t, parse_one_stream x = .ok t ∧
      tags_shapedB (dgetOr t.raw "tags" .null) = true ∧
      (numVal t.payload.index).isSome = true := by
  cases x with
  | obj fs =>
    have hx2 := hx
    unfold stream_shapedB at hx2
    rw [Bool.and_eq_true] at hx2
    obtain ⟨tg, htg⟩ := normalise_tags_ok hx2.1
    unfold parse_one_stream
    simp only [bind, Except.bind]
    rw [htg]
    dsimp only
    exact ⟨_, rfl, hx2.1, hx2.2⟩
  | null => simp [stream_shapedB] at hx
  | bool b => simp [stream_shapedB] at hx
  | int n => simp [stream_shapedB] at hx
  | float q => simp [stream_shapedB] at hx
  | str s => simp [stream_shapedB] at hx
  | arr xs => simp [stream_shapedB] at hx

/-- On a shaped probe document the coerced `streams` value is a list of shaped streams. -/
theorem coerce_streams_shaped {raw : List (String × JVal)} (h : raw_shapedB raw = true) :
    ∃ xs, coerce_streams raw = .arr xs ∧ ∀ x ∈ xs, stream_shapedB x = true := by
  have h2 := h
  unfold raw_shapedB at h2
  rw [Bool.and_eq_true] at h2
  have hs := h2.2
  unfold coerce_streams
  by_cases ht : (dgetOr raw "streams" .null).truthy = true
  · rw [if_pos ht]
    rcases Bool.or_eq_true _ _ ▸ hs with hnt | harr
    · exact absurd (by simpa using hnt) (by simp [ht])
    · cases hv : dgetOr raw "streams" JVal.null with
      | arr xs =>
        rw [hv] at harr
        refine ⟨xs, rfl, ?_⟩
        intro x hx
        exact List.all_eq_true.1 harr x hx
      | null => rw [hv] at harr; simp at harr
      | bool b => rw [hv] at harr; simp at harr
      | int n => rw [hv] at harr; simp at harr
      | float q => rw [hv] at harr; simp at harr
      | str s => rw [hv] at harr; simp at harr
      | obj fs => rw [hv] at harr; simp at harr
  · rw [if_neg ht]
    exact ⟨[], rfl, fun x hx => absurd hx (List.not_mem_nil x)⟩

/-- On a shaped probe document `coerce_format` succeeds with a dict-or-falsy tags slot. -/
theorem coerce_format_ok {raw : List (String × JVal)} (h : raw_shapedB raw = true) :
    ∃ fi, coerce_format raw = .ok fi ∧ tags_shapedB (dgetOr fi "tags" .null) = true := by
  have h2 := h
  unfold raw_shapedB at h2
  rw [Bool.and_eq_true] at h2
  have hf := h2.1
  rw [Bool.and_eq_true] at hf
  unfold coerce_format
  by_cases ht : (dgetOr raw "format" .null).truthy = true
  · rcases Bool.or_eq_true _ _ ▸ hf.1 with hobj | hnt
    · cases hv : dgetOr raw "format" JVal.null with
      | obj fs =>
        dsimp only
        rw [if_pos (hv ▸ ht)]
        refine ⟨fs, rfl, ?_⟩
        have := hf.2
        rw [hv] at this
        exact this
      | null => rw [hv] at hobj; simp [is_obj] at hobj
      | bool b => rw [hv] at hobj; simp [is_obj] at hobj
      | int n => rw [hv] at hobj; simp [is_obj] at hobj
      | float q => rw [hv] at hobj; simp [is_obj] at hobj
      | str s => rw [hv] at hobj; simp [is_obj] at hobj
      | arr xs => rw [hv] at hobj; simp [is_obj] at hobj
    · exact absurd (by simpa using hnt) (by simp [ht])
  · dsimp only
    rw [if_neg ht]
    exact ⟨[], rfl, by decide⟩

/-- On a shaped probe document `_parse_streams` succeeds, and every selected video/audio
stream keeps a dict-or-falsy tags slot. -/
theorem parse_streams_ok {raw : List (String × JVal)} (h : raw_shapedB raw = true) :
    ∃ sp, parse_streams (coerce_streams raw) = .ok sp ∧
      ∀ t ∈ sp.2.1 ++ sp.2.2, tags_shapedB (dgetOr t.raw "tags" .null) = true := by
  obtain ⟨xs, hxs, hall⟩ := coerce_streams_shaped h
  rw [hxs]
  unfold parse_streams
  simp only [bind, Except.bind]
  have hit : py_iter_items (.arr xs) = .ok xs := rfl
  rw [hit]
  dsimp only
  obtain ⟨tagged, htag, hQ⟩ := mapM_ok parse_one_stream
    (fun x => stream_shapedB x = true)
    (fun t => tags_shapedB (dgetOr t.raw "tags" .null) = true ∧
      (numVal t.payload.index).isSome = true)
    (fun x hx => by
      obtain ⟨t, h1, h2, h3⟩ := parse_one_stream_ok hx
      exact ⟨t, h1, h2, h3⟩)
    xs hall
  rw [htag]
  dsimp only
  obtain ⟨payload, hpay⟩ := sort_by_m_ok
    (fun e : StreamEntry => (numVal e.index).isSome = true)
    (fun a b => pyLt a.index b.index)
    (fun a b ha hb => pyLt_num_ok ha hb)
    (tagged.map (·.payload))
    (fun y hy => by
      obtain ⟨t, ht, rfl⟩ := List.mem_map.1 hy
      exact (hQ t ht).2)
  rw [hpay]
  dsimp only
  refine ⟨_, rfl, ?_⟩
  intro t ht
  rcases List.mem_append.1 ht with h1 | h1
  · exact (hQ t (List.mem_filter.1 h1).1).1
  · exact (hQ t (List.mem_filter.1 h1).1).1

/-- `_determine_created_time` cannot raise when every passed stream's tags slot is
dict-or-falsy. -/
theorem determine_created_time_ok (localOff : ℤ) (ctx : SourceContext)
    (format_tags : List (String × String)) (streams : List TaggedStream) (dflt : PyDateTime)
    (h : ∀ t ∈ streams, tags_shapedB (dgetOr t.raw "tags" .null) = true) :
    ∃ ct, determine_created_time localOff ctx format_tags streams dflt = .ok ct := by
  unfold determine_created_time
  cases ctx.created_time with
  | some t => exact ⟨_, rfl⟩
  | none =>
    simp only [bind, Except.bind]
    obtain ⟨maps, hmaps, _⟩ := mapM_ok
      (fun s : TaggedStream => normalise_tags (dgetOr s.raw "tags" .null))
      (fun s => tags_shapedB (dgetOr s.raw "tags" .null) = true)
      (fun _ => True)
      (fun s hs => by
        obtain ⟨r, hr⟩ := normalise_tags_ok hs
        exact ⟨r, hr, trivial⟩)
      streams h
    rw [hmaps]
    dsimp only
    cases scan_tag_map format_tags ++ (maps.map scan_tag_map).flatten with
    | cons c cs => exact ⟨_, rfl⟩
    | nil =>
      cases ctx.modified_time with
      | some m => exact ⟨_, rfl⟩
      | none => exact ⟨_, rfl⟩

/-- Counterexample to C2's totality claim: probe JSON whose `format` slot is a (truthy)
string makes `parse_ffprobe_json` raise `AttributeError` at `format_info.get("tags")`, and
a sidecar with a falsy `asset_id` makes `render_thumbnails` raise `ValueError` — failure
returns beyond the two the claim admits. -/
theorem c2_counterexample :
    parse_ffprobe_json envA rawBadFormat ctx0 = .error .attributeError ∧
    render_thumbnails oracleC5 "v.mp4" renderSCEmpty "out" [] =
      .error (.valueError "sidecar missing asset_id") :=
  ⟨rfl, rfl⟩

set_option maxHeartbeats 1000000 in
/-- Claim C2 (corrected: totality holds only on probe documents of the expected container
shape — elsewhere `parse_ffprobe_json` raises, e.g. `AttributeError`, and
`render_thumbnails` raises `ValueError` on a falsy asset id): on any probe document whose
`format` and `streams` slots have the shapes ffprobe emits, parsing either succeeds or
fails only with the schema self-check violation; and rendering succeeds whenever the
sidecar carries a non-empty asset id. -/
theorem c2_error_confinement (env : IngestEnv) (raw : List (String × JVal))
    (ctx : SourceContext) (oracle : ExtractOracle) (video_path out_dir : String)
    (sidecar : RenderSidecar) (fs : List String)
    (hraw : raw_shapedB raw = true) (hid : ¬ sidecar.asset_id = "") :
    ((∃ sc, parse_ffprobe_json env raw ctx = .ok sc) ∨
      parse_ffprobe_json env raw ctx = .error .validationError) ∧
    (∃ r, render_thumbnails oracle video_path sidecar out_dir fs = .ok r) := by
  constructor
  · unfold parse_ffprobe_json
    simp only [bind, Except.bind]
    obtain ⟨fi, hfi, hft⟩ := coerce_format_ok hraw
    rw [hfi]
    dsimp only
    obtain ⟨ft, hftok⟩ := normalise_tags_ok hft
    rw [hftok]
    dsimp only
    obtain ⟨sp, hsp, hstr⟩ := parse_streams_ok hraw
    rw [hsp]
    dsimp only
    obtain ⟨ct, hct⟩ := determine_created_time_ok env.localOffSec ctx ft (sp.2.1 ++ sp.2.2)
      env.now hstr
    rw [hct]
    dsimp only
    by_cases hv : sidecarValid (assemble_sidecar env.localOffSec env.ffprobe_version
        env.ffmpeg_version env.now ctx fi ft sp ct) = true
    · rw [if_pos hv]
      exact Or.inl ⟨_, rfl⟩
    · rw [if_neg hv]
      exact Or.inr rfl
  · unfold render_thumbnails
    rw [if_neg hid]
    exact ⟨_, rfl⟩

/-- Witness for C2 at a shaped single-video-stream probe and a non-empty asset id. -/
theorem c2_witness :
    raw_shapedB rawC6 = true ∧ ¬ renderSC.asset_id = "" ∧
    (((∃ sc, parse_ffprobe_json envA rawC6 ctx0 = .ok sc) ∨
      parse_ffprobe_json envA rawC6 ctx0 = .error .validationError) ∧
    (∃ r, render_thumbnails oracleC5 "v.mp4" renderSC "out" [] = .ok r)) :=
  ⟨by decide, by decide,
    c2_error_confinement envA rawC6 ctx0 oracleC5 "v.mp4" "out" renderSC [] (by decide)
      (by decide)⟩
